import Mathlib

/-!
# Design_Patterns: a verification development

Shallow embedding of the three C programs of the repository
(`HomeAutomation.c`, `Factory_method.c`, `SingleTons.c`) and proofs about them.

Conventions of the embedding

* Standard output is the list of bytes written to it (`List Nat`); `lit s` is
  the byte sequence of the C string literal `s`.
* The heap of `HomeAutomation.c` and `Factory_method.c` is a flat,
  byte-addressed memory (`Mem`).  Struct fields are read and written at the
  offsets of the LP64 little-endian ABI (8-byte pointers, `char type[20]`
  at offset 0, `turn_on` at 24, `turn_off` at 32).  The address returned by each
  `malloc` is an argument of the embedded constructor: the allocator is not
  part of the programs.
* A function pointer is the code address of a function of the program
  (`Fn.addr`); an indirect call decodes the address and faults (`none`) when
  it is not the address of a function of the right shape.
* `none` stands for a run that does not return normally (a fault, or a fuel
  bound that was too small).
-/

/-! ## Part 1: definitions -/

/-- Bytes of a C string literal. -/
def lit (s : String) : List Nat := s.toList.map Char.toNat

/-! ### Byte-addressed memory -/

/-- Flat memory: the byte stored at each address. -/
abbrev Mem := Nat → Nat

/-- Store one byte. -/
def Mem.write (m : Mem) (a v : Nat) : Mem := fun x => if x = a then v % 256 else m x

/-- Store consecutive bytes from address `a` on. -/
def writeBytes (m : Mem) (a : Nat) : List Nat → Mem
  | [] => m
  | b :: bs => writeBytes (m.write a b) (a + 1) bs

/-- The `n` low bytes of `v`, least significant first. -/
def leBytes : Nat → Nat → List Nat
  | 0, _ => []
  | n + 1, v => v % 256 :: leBytes n (v / 256)

/-- The little-endian number held by the `n` bytes at `a`. -/
def readLE (m : Mem) (a : Nat) : Nat → Nat
  | 0 => 0
  | n + 1 => m a + 256 * readLE m (a + 1) n

/-- Size of a data or function pointer (LP64). -/
def PTR_SIZE : Nat := 8

/-- Load a pointer-sized field. -/
def readPtr (m : Mem) (a : Nat) : Nat := readLE m a PTR_SIZE

/-- Store a pointer-sized field. -/
def writePtr (m : Mem) (a v : Nat) : Mem := writeBytes m a (leBytes PTR_SIZE v)

/-- The C library `strcpy(dst, src)`, `src` being the characters before the
terminating NUL: copies them and the NUL, whatever the size of the destination. -/
def strcpy (m : Mem) (dst : Nat) (src : List Nat) : Mem := writeBytes m dst (src ++ [0])

/-- The string `printf("%s")` prints from address `a`: the bytes before the first
NUL.  `none` when no NUL is met within `fuel` bytes. -/
def readStr (m : Mem) : Nat → Nat → Option (List Nat)
  | 0, _ => none
  | fuel + 1, a =>
    if m a = 0 then some [] else (readStr m fuel (a + 1)).map (fun r => m a :: r)

/-- A well-formed C string argument: characters are non-NUL bytes. -/
def IsCStr (t : List Nat) : Prop := ∀ c ∈ t, 0 < c ∧ c < 256

instance (t : List Nat) : Decidable (IsCStr t) := by
  unfold IsCStr; infer_instance

/-- The memory holds the NUL-terminated string `t` at address `a`. -/
def HasStr (m : Mem) (a : Nat) (t : List Nat) : Prop :=
  (∀ i, i < t.length → m (a + i) = t.getD i 0) ∧ m (a + t.length) = 0 ∧ ∀ c ∈ t, c ≠ 0

/-- A memory whose bytes are all zero, used for concrete runs. -/
def zeroMem : Mem := fun _ => 0

namespace HomeAutomation

/-! ### Functions, function pointers and program state -/

/-- The functions of `HomeAutomation.c` whose address is taken. -/
inductive Fn where
  | light_on | light_off
  | legacy_on | legacy_off
  | adapter_on | adapter_off
  | proxy_on | proxy_off
  | emergency_shutdown
  | eco_mode | turbo_mode
  deriving DecidableEq, Repr

/-- Code address of a function (symbolic: distinct, non-null, pointer-sized). -/
def Fn.addr : Fn → Nat
  | .light_on => 0x401000
  | .light_off => 0x401010
  | .legacy_on => 0x401020
  | .legacy_off => 0x401030
  | .adapter_on => 0x401040
  | .adapter_off => 0x401050
  | .proxy_on => 0x401060
  | .proxy_off => 0x401070
  | .emergency_shutdown => 0x401080
  | .eco_mode => 0x401090
  | .turbo_mode => 0x4010a0

/-- The function a code address designates, if any. -/
def Fn.ofAddr (a : Nat) : Option Fn :=
  [Fn.light_on, .light_off, .legacy_on, .legacy_off, .adapter_on, .adapter_off,
   .proxy_on, .proxy_off, .emergency_shutdown, .eco_mode, .turbo_mode].find?
    (fun f => f.addr == a)

/-- Program state: the heap, the bytes written to standard output, and a ghost
log of the functions entered with their `SmartDevice*` argument (`none` for a
function without parameters). -/
structure State where
  mem : Mem
  out : List Nat
  calls : List (Fn × Option Nat)

/-- Effect of `printf` on standard output. -/
def State.printf (s : State) (bytes : List Nat) : State :=
  { s with out := s.out ++ bytes }

/-- Log the entry into a function. -/
def State.enter (s : State) (f : Fn) (arg : Option Nat) : State :=
  { s with calls := s.calls ++ [(f, arg)] }

/-! ### Struct layouts (LP64) -/

/-- Layout of `SmartDevice`: `offsetof(SmartDevice, type)`. -/
def OFF_type : Nat := 0
/-- Layout of `SmartDevice`: `offsetof(SmartDevice, turn_on)` (20 bytes of `type`, 4 of padding). -/
def OFF_turn_on : Nat := 24
/-- Layout of `SmartDevice`: `offsetof(SmartDevice, turn_off)`. -/
def OFF_turn_off : Nat := 32
/-- Size of `SmartDevice`. -/
def SIZEOF_SmartDevice : Nat := 40
/-- Layout of `LegacyDevice`: `offsetof(LegacyDevice, old_switch_on)`. -/
def OFF_old_switch_on : Nat := 0
/-- Layout of `LegacyDevice`: `offsetof(LegacyDevice, old_switch_off)`. -/
def OFF_old_switch_off : Nat := 8
/-- Size of `LegacyDevice`. -/
def SIZEOF_LegacyDevice : Nat := 16
/-- Layout of `LegacyAdapter`: `offsetof(LegacyAdapter, legacy)`; `base` is at offset 0. -/
def OFF_legacy : Nat := 40
/-- Size of `LegacyAdapter`. -/
def SIZEOF_LegacyAdapter : Nat := 48
/-- Layout of `DeviceProxy`: `offsetof(DeviceProxy, real_device)`, its only member. -/
def OFF_real_device : Nat := 0
/-- Size of `DeviceProxy`. -/
def SIZEOF_DeviceProxy : Nat := 8

/-! ### Factory pattern (lines 16-31) -/

/-- Embedding of `void light_on(SmartDevice* d) { printf("%s Light ON\n", d->type); }`. -/
def light_on (fuel : Nat) (s : State) (d : Nat) : Option State :=
  (readStr s.mem fuel (d + OFF_type)).map
    (fun t => (s.enter .light_on (some d)).printf (t ++ lit " Light ON\n"))

/-- Embedding of `void light_off(SmartDevice* d) { printf("%s Light OFF\n", d->type); }`. -/
def light_off (fuel : Nat) (s : State) (d : Nat) : Option State :=
  (readStr s.mem fuel (d + OFF_type)).map
    (fun t => (s.enter .light_off (some d)).printf (t ++ lit " Light OFF\n"))

/-- Embedding of `create_device(type)`; `p` is the address returned by
`malloc(sizeof(SmartDevice))` and is the handle returned. -/
def create_device (m : Mem) (p : Nat) (type : List Nat) : Mem :=
  let m1 := strcpy m (p + OFF_type) type
  let m2 := writePtr m1 (p + OFF_turn_on) Fn.light_on.addr
  writePtr m2 (p + OFF_turn_off) Fn.light_off.addr

/-! ### Adapter pattern (lines 33-65) -/

/-- Embedding of `legacy_on`. -/
def legacy_on (s : State) : State :=
  (s.enter .legacy_on none).printf (lit "Legacy device is ON (manual switch)\n")

/-- Embedding of `legacy_off`. -/
def legacy_off (s : State) : State :=
  (s.enter .legacy_off none).printf (lit "Legacy device is OFF (manual switch)\n")

/-- Embedding of `emergency_shutdown` (line 125). -/
def emergency_shutdown (s : State) : State :=
  (s.enter .emergency_shutdown none).printf (lit "[OBSERVER] Emergency shutdown triggered!\n")

/-- Embedding of `eco_mode` (line 132). -/
def eco_mode (s : State) : State :=
  (s.enter .eco_mode none).printf (lit "Device running in ECO mode\n")

/-- Embedding of `turbo_mode` (line 133). -/
def turbo_mode (s : State) : State :=
  (s.enter .turbo_mode none).printf (lit "Device running in TURBO mode\n")

/-- Indirect call `f()` through a pointer to a function without parameters. -/
def call0 (s : State) (f : Nat) : Option State :=
  match Fn.ofAddr f with
  | some .legacy_on => some (legacy_on s)
  | some .legacy_off => some (legacy_off s)
  | some .emergency_shutdown => some (emergency_shutdown s)
  | some .eco_mode => some (eco_mode s)
  | some .turbo_mode => some (turbo_mode s)
  | _ => none

/-- Embedding of `adapter_on`: `a = (LegacyAdapter*)d; a->legacy->old_switch_on();`. -/
def adapter_on (s : State) (d : Nat) : Option State :=
  let legacy := readPtr s.mem (d + OFF_legacy)
  call0 (s.enter .adapter_on (some d)) (readPtr s.mem (legacy + OFF_old_switch_on))

/-- Embedding of `adapter_off`: `a = (LegacyAdapter*)d; a->legacy->old_switch_off();`. -/
def adapter_off (s : State) (d : Nat) : Option State :=
  let legacy := readPtr s.mem (d + OFF_legacy)
  call0 (s.enter .adapter_off (some d)) (readPtr s.mem (legacy + OFF_old_switch_off))

/-- Embedding of `create_legacy_adapter()`; `p` is the address returned by
`malloc(sizeof(LegacyAdapter))`, `q` the one returned by
`malloc(sizeof(LegacyDevice))`; the handle returned is `p`. -/
def create_legacy_adapter (m : Mem) (p q : Nat) : Mem :=
  let m1 := writePtr m (p + OFF_legacy) q
  let m2 := writePtr m1 (q + OFF_old_switch_on) Fn.legacy_on.addr
  let m3 := writePtr m2 (q + OFF_old_switch_off) Fn.legacy_off.addr
  let m4 := strcpy m3 (p + OFF_type) (lit "Legacy")
  let m5 := writePtr m4 (p + OFF_turn_on) Fn.adapter_on.addr
  writePtr m5 (p + OFF_turn_off) Fn.adapter_off.addr

/-! ### Proxy pattern (lines 67-91) -/

/-- Embedding of `proxy_on`, `call` being the indirect call of a device operation:
`proxy = (DeviceProxy*)d; printf("[LOG] Proxy turning ON %s\n", proxy->real_device->type);
proxy->real_device->turn_on(proxy->real_device);`. -/
def proxy_on (call : State → Nat → Nat → Option State) (fuel : Nat) (s : State) (d : Nat) :
    Option State :=
  let real_device := readPtr s.mem (d + OFF_real_device)
  (readStr s.mem fuel (real_device + OFF_type)).bind (fun t =>
    let s1 := (s.enter .proxy_on (some d)).printf
      (lit "[LOG] Proxy turning ON " ++ t ++ lit "\n")
    call s1 (readPtr s1.mem (real_device + OFF_turn_on)) real_device)

/-- Embedding of `proxy_off`. -/
def proxy_off (call : State → Nat → Nat → Option State) (fuel : Nat) (s : State) (d : Nat) :
    Option State :=
  let real_device := readPtr s.mem (d + OFF_real_device)
  (readStr s.mem fuel (real_device + OFF_type)).bind (fun t =>
    let s1 := (s.enter .proxy_off (some d)).printf
      (lit "[LOG] Proxy turning OFF " ++ t ++ lit "\n")
    call s1 (readPtr s1.mem (real_device + OFF_turn_off)) real_device)

/-- Indirect call `f(d)` through a `void (*)(struct SmartDevice*)` pointer.  `fuel`
bounds the depth of nested calls and the length of the strings printed. -/
def callDev : Nat → State → Nat → Nat → Option State
  | 0, _, _, _ => none
  | fuel + 1, s, f, d =>
    match Fn.ofAddr f with
    | some .light_on => light_on (fuel + 1) s d
    | some .light_off => light_off (fuel + 1) s d
    | some .adapter_on => adapter_on s d
    | some .adapter_off => adapter_off s d
    | some .proxy_on => proxy_on (callDev fuel) (fuel + 1) s d
    | some .proxy_off => proxy_off (callDev fuel) (fuel + 1) s d
    | _ => none

/-- The expression `d->turn_on(d)`. -/
def turn_on (fuel : Nat) (s : State) (d : Nat) : Option State :=
  callDev fuel s (readPtr s.mem (d + OFF_turn_on)) d

/-- The expression `d->turn_off(d)`. -/
def turn_off (fuel : Nat) (s : State) (d : Nat) : Option State :=
  callDev fuel s (readPtr s.mem (d + OFF_turn_off)) d

/-- Embedding of `create_proxy(real)`; `p` is the address returned by
`malloc(sizeof(DeviceProxy))` and is the handle returned.  The stores follow the
source: `proxy->real_device = real`, then, through `d = (SmartDevice*)proxy`,
`strcpy(d->type, "ProxyDevice")`, `d->turn_on = proxy_on`, `d->turn_off = proxy_off`. -/
def create_proxy (m : Mem) (p real : Nat) : Mem :=
  let m1 := writePtr m (p + OFF_real_device) real
  let m2 := strcpy m1 (p + OFF_type) (lit "ProxyDevice")
  let m3 := writePtr m2 (p + OFF_turn_on) Fn.proxy_on.addr
  writePtr m3 (p + OFF_turn_off) Fn.proxy_off.addr

/-! ### Facade pattern (lines 93-106) -/

/-- The struct `HomeFacade`: two device handles. -/
structure HomeFacade where
  light : Nat
  fan : Nat

/-- Embedding of `facade_all_on`: `h->light->turn_on(h->light); h->fan->turn_on(h->fan);`. -/
def facade_all_on (fuel : Nat) (s : State) (h : HomeFacade) : Option State :=
  (turn_on fuel s h.light).bind (fun s1 => turn_on fuel s1 h.fan)

/-- Embedding of `facade_all_off`. -/
def facade_all_off (fuel : Nat) (s : State) (h : HomeFacade) : Option State :=
  (turn_off fuel s h.light).bind (fun s1 => turn_off fuel s1 h.fan)

/-! ### Strategy pattern (lines 129-137) -/

/-- Embedding of `run_strategy`: `mode();`. -/
def run_strategy (s : State) (mode : Nat) : Option State := call0 s mode

/-! ### State pattern (lines 139-152) -/

/-- The C enumeration `DeviceState`, an integer type. -/
abbrev DeviceState := Int
/-- Enumerator `OFF`. -/
def OFF : DeviceState := 0
/-- Enumerator `ON`. -/
def ON : DeviceState := 1
/-- Enumerator `STANDBY`. -/
def STANDBY : DeviceState := 2

/-- The struct `StatefulDevice`. -/
structure StatefulDevice where
  state : DeviceState

/-- Embedding of `print_state`: a `switch` without `default`. -/
def print_state (s : State) (d : StatefulDevice) : State :=
  if d.state = ON then s.printf (lit "Device is ON\n")
  else if d.state = OFF then s.printf (lit "Device is OFF\n")
  else if d.state = STANDBY then s.printf (lit "Device is in STANDBY\n")
  else s

/-- The assignment `dev.state = v` (line 184). -/
def set_state (d : StatefulDevice) (v : DeviceState) : StatefulDevice :=
  { d with state := v }

/-! ### Observer pattern (`HomeAutomation.c`, lines 108-123) -/

/-- The C constant `#define MAX_OBSERVERS 5`. -/
def MAX_OBSERVERS : Nat := 5

/-- The two globals of the observer pattern, `EventHandler observers[MAX_OBSERVERS]`
and `int observer_count`, together with a ghost log `invoked` of the callbacks
that were called.  `H` is the type of (non-null) callbacks; a slot holding
`none` is a null function pointer. -/
structure ObsState (H : Type) where
  observers : List (Option H)
  observer_count : Int
  invoked : List H

/-- State at program start: static storage is zero-initialised, `observer_count = 0`. -/
def ObsState.init (H : Type) : ObsState H :=
  { observers := List.replicate MAX_OBSERVERS none, observer_count := 0, invoked := [] }

/-- Checked read of `arr[i]`: `none` when `i` is outside the array. -/
def arrRead {α : Type} (arr : List α) (i : Int) : Option α :=
  if 0 ≤ i then arr[i.toNat]? else none

/-- Checked write `arr[i] = v`: `none` when `i` is outside the array. -/
def arrWrite {α : Type} (arr : List α) (i : Int) (v : α) : Option (List α) :=
  if 0 ≤ i ∧ i.toNat < arr.length then some (arr.set i.toNat v) else none

/-- Embedding of
`if (observer_count < MAX_OBSERVERS) observers[observer_count++] = h;`. -/
def add_observer {H : Type} (s : ObsState H) (h : H) : Option (ObsState H) :=
  if s.observer_count < (MAX_OBSERVERS : Int) then
    (arrWrite s.observers s.observer_count (some h)).map
      (fun a => { s with observers := a, observer_count := s.observer_count + 1 })
  else
    some s

/-- Successive `add_observer` calls, stopping at the first fault. -/
def addAll {H : Type} (s : ObsState H) : List H → Option (ObsState H)
  | [] => some s
  | h :: hs => (add_observer s h).bind (fun s1 => addAll s1 hs)

/-- The call `observers[i]()` of the callback `h`.  A callback is a function of
the caller and may use the registry while it runs: `body h` lists the callbacks
that `h` passes to `add_observer`, in order (`[]` for a callback that leaves the
registry alone, as `emergency_shutdown` does).  The entry into `h` is logged,
then its `add_observer` calls are run on the registry.  A callback that calls
`notify_observers` itself or assigns the two globals directly is not described
by `body`. -/
def invoke {H : Type} (body : H → List H) (s : ObsState H) (h : H) : Option (ObsState H) :=
  addAll { s with invoked := s.invoked ++ [h] } (body h)

/-- The loop `for (int i = 0; i < observer_count; ++i) observers[i]();` from
index `i` on.  Each iteration tests `i` against the current `observer_count`,
reads the current slot `i` and runs the callback on the current registry.  A
call through a null slot or a read outside the array is a fault. -/
def notify_loop {H : Type} (body : H → List H) : Nat → ObsState H → Int → Option (ObsState H)
  | 0, s, i => if i < s.observer_count then none else some s
  | fuel + 1, s, i =>
    if i < s.observer_count then
      match arrRead s.observers i with
      | some (some h) => (invoke body s h).bind (fun s1 => notify_loop body fuel s1 (i + 1))
      | _ => none
    else
      some s

/-- Embedding of `notify_observers`.  The array has `MAX_OBSERVERS` slots, so
`MAX_OBSERVERS` iterations are all the loop can make without reading outside
it: that is the fuel it is given. -/
def notify_observers {H : Type} (body : H → List H) (s : ObsState H) : Option (ObsState H) :=
  notify_loop body MAX_OBSERVERS s 0

/-- The two operations a caller can perform on the registry. -/
inductive ObsOp (H : Type) where
  | add (h : H)
  | notify

/-- One operation. -/
def ObsOp.step {H : Type} (body : H → List H) (s : ObsState H) : ObsOp H → Option (ObsState H)
  | .add h => add_observer s h
  | .notify => notify_observers body s

/-- A sequence of operations, stopping at the first fault. -/
def runOps {H : Type} (body : H → List H) (s : ObsState H) :
    List (ObsOp H) → Option (ObsState H)
  | [] => some s
  | op :: ops => (op.step body s).bind (fun s1 => runOps body s1 ops)

/-- The callbacks passed to `add_observer` in a sequence of operations, in order. -/
def registered {H : Type} : List (ObsOp H) → List H
  | [] => []
  | .add h :: ops => h :: registered ops
  | .notify :: ops => registered ops

/-- Callbacks for concrete runs: callback 8 calls `add_observer` on callback 9
when it runs; every other callback leaves the registry alone. -/
def demoBody (h : Nat) : List Nat := if h = 8 then [9] else []

/-! ### Predicates used in the proofs -/

/-- Registry invariant after the callbacks `regs` were passed to `add_observer`. -/
structure ObsInv {H : Type} (s : ObsState H) (regs : List H) : Prop where
  len : s.observers.length = MAX_OBSERVERS
  count : s.observer_count = ((min regs.length MAX_OBSERVERS : Nat) : Int)
  slots : ∀ i, i < MAX_OBSERVERS → s.observers[i]? = some (regs[i]?)

/-- What a run leaves for an observer: standard output and the call log. -/
def State.obs (s : State) : List Nat × List (Fn × Option Nat) := (s.out, s.calls)

/-- The state `r` reached from `⟨s.mem, [], []⟩`, replayed after `s`. -/
def State.after (s r : State) : State :=
  { mem := s.mem, out := s.out ++ r.out, calls := s.calls ++ r.calls }

end HomeAutomation

namespace FactoryMethod

/-! ### `Factory_method.c` -/

/-- The functions of `Factory_method.c` whose address is taken. -/
inductive Fn where
  | draw_circle | draw_square
  deriving DecidableEq, Repr

/-- Code address of a function (symbolic: distinct, non-null, pointer-sized). -/
def Fn.addr : Fn → Nat
  | .draw_circle => 0x401000
  | .draw_square => 0x401010

/-- The function a code address designates, if any. -/
def Fn.ofAddr (a : Nat) : Option Fn :=
  [Fn.draw_circle, .draw_square].find? (fun f => f.addr == a)

/-- Program state: heap, standard output, ghost log of the functions entered. -/
structure State where
  mem : Mem
  out : List Nat
  calls : List Fn

/-- Layout of `shape`: `offsetof(shape, draw)`; `circle` and `square` hold a
`shape base` at offset 0. -/
def OFF_draw : Nat := 0

/-- Embedding of `draw_circle`. -/
def draw_circle (s : State) : State :=
  { s with out := s.out ++ lit "draw the circle\n", calls := s.calls ++ [.draw_circle] }

/-- Embedding of `draw_square` (the message is spelt as in the source). -/
def draw_square (s : State) : State :=
  { s with out := s.out ++ lit "draw the sqaure\n", calls := s.calls ++ [.draw_square] }

/-- Embedding of `create_circle()`; `p` is the address returned by `malloc` and
the handle returned. -/
def create_circle (m : Mem) (p : Nat) : Mem := writePtr m (p + OFF_draw) Fn.draw_circle.addr

/-- Embedding of `create_square()`; `p` is the address returned by `malloc` and
the handle returned. -/
def create_square (m : Mem) (p : Nat) : Mem := writePtr m (p + OFF_draw) Fn.draw_square.addr

/-- The expression `x->base.draw()`: an indirect call through the `draw` field. -/
def draw (s : State) (x : Nat) : Option State :=
  match Fn.ofAddr (readPtr s.mem (x + OFF_draw)) with
  | some .draw_circle => some (draw_circle s)
  | some .draw_square => some (draw_square s)
  | none => none

end FactoryMethod

namespace SingleTonsDemo

/-! ### `SingleTons.c`

The heap of this program is a list of blocks: block `k` has address `k + 1`
(address 0 is `NULL`), and is `some obj` while allocated, `none` once freed.
`malloc` returns a block that no live pointer refers to; it is taken to
succeed. -/

/-- The struct `SingleTons`; a field that was never assigned is `none`. -/
structure SingleTons where
  data : Option Int
  name : Option Nat
  deriving DecidableEq, Repr

/-- Program state: the heap, the static pointer `instance` (`instancePtr`), and
standard output. -/
structure World where
  heap : List (Option SingleTons)
  instancePtr : Nat
  out : List Nat
  deriving DecidableEq, Repr

/-- State at program start: `static SingleTons *instance = NULL;`. -/
def World.init : World := { heap := [], instancePtr := 0, out := [] }

/-- The call `malloc(sizeof(SingleTons))`: a new block with unassigned fields. -/
def malloc (w : World) : Nat × World :=
  (w.heap.length + 1, { w with heap := w.heap ++ [some { data := none, name := none }] })

/-- The call `free(p)`: nothing for `NULL`, a fault for a pointer that is not live. -/
def free (w : World) (p : Nat) : Option World :=
  if p = 0 then some w
  else
    match w.heap[p - 1]? with
    | some (some _) => some { w with heap := w.heap.set (p - 1) none }
    | _ => none

/-- The block `p` points to is allocated. -/
def World.live (w : World) (p : Nat) : Bool :=
  p ≠ 0 && (match w.heap[p - 1]? with
    | some (some _) => true
    | _ => false)

/-- Embedding of `getInstance`: `instance = malloc(sizeof(SingleTons)); return instance;`. -/
def getInstance (w : World) : Nat × World :=
  let r := malloc w
  (r.1, { r.2 with instancePtr := r.1 })

/-- Embedding of `freeSingleTons`: `free(instance);`. -/
def freeSingleTons (w : World) : Option World := free w w.instancePtr

/-- The assignment `p->data = v`; a fault when `p` is not live. -/
def store_data (w : World) (p : Nat) (v : Int) : Option World :=
  if p = 0 then none
  else
    match w.heap[p - 1]? with
    | some (some obj) => some { w with heap := w.heap.set (p - 1) (some { obj with data := some v }) }
    | _ => none

/-- The value of `p->data`: `some none` when the field was never assigned, a
fault (`none`) when `p` is not live. -/
def load_data (w : World) (p : Nat) : Option (Option Int) :=
  if p = 0 then none
  else
    match w.heap[p - 1]? with
    | some (some obj) => some obj.data
    | _ => none

end SingleTonsDemo

/-! ## Part 2: theorems -/

/-! ### Memory lemmas -/

theorem writeBytes_apply (bs : List Nat) : ∀ (m : Mem) (a x : Nat),
    writeBytes m a bs x
      = if a ≤ x ∧ x < a + bs.length then bs.getD (x - a) 0 % 256 else m x := by
  induction bs with
  | nil =>
    intro m a x
    simp only [writeBytes, List.length_nil, Nat.add_zero]
    rw [if_neg (by omega)]
  | cons b bs ih =>
    intro m a x
    simp only [writeBytes, ih, List.length_cons]
    by_cases h1 : a + 1 ≤ x ∧ x < a + 1 + bs.length
    · have h2 : a ≤ x ∧ x < a + (bs.length + 1) := by omega
      have h3 : x - a = (x - (a + 1)) + 1 := by omega
      simp only [h1, h2, and_self, if_true, h3, List.getD_cons_succ]
    · rw [if_neg h1]
      by_cases h4 : x = a
      · subst h4
        simp [Mem.write]
      · have h5 : ¬ (a ≤ x ∧ x < a + (bs.length + 1)) := by omega
        simp [Mem.write, h4, h5]

theorem leBytes_length (n : Nat) : ∀ v, (leBytes n v).length = n := by
  induction n with
  | zero => intro v; rfl
  | succ n ih => intro v; simp [leBytes, ih]

theorem readLE_shift (n : Nat) : ∀ (m1 m2 : Mem) (a b : Nat),
    (∀ i, i < n → m1 (a + i) = m2 (b + i)) → readLE m1 a n = readLE m2 b n := by
  induction n with
  | zero => intro m1 m2 a b _; rfl
  | succ n ih =>
    intro m1 m2 a b h
    simp only [readLE]
    have h0 := h 0 (Nat.succ_pos n)
    simp only [Nat.add_zero] at h0
    rw [h0, ih m1 m2 (a + 1) (b + 1)]
    intro i hi
    have := h (i + 1) (by omega)
    rw [show a + 1 + i = a + (i + 1) by omega, show b + 1 + i = b + (i + 1) by omega]
    exact this

theorem readLE_leBytes (n : Nat) : ∀ (m : Mem) (a v : Nat),
    readLE (writeBytes m a (leBytes n v)) a n = v % 256 ^ n := by
  induction n with
  | zero => intro m a v; simp [readLE, Nat.mod_one]
  | succ n ih =>
    intro m a v
    simp only [readLE, leBytes, writeBytes]
    rw [ih, writeBytes_apply, if_neg (by omega), pow_succ', Nat.mod_mul]
    simp [Mem.write]

theorem readPtr_writePtr (m : Mem) (a v : Nat) (hv : v < 2 ^ 64) :
    readPtr (writePtr m a v) a = v := by
  unfold readPtr writePtr PTR_SIZE
  rw [readLE_leBytes]
  exact Nat.mod_eq_of_lt (by simpa using hv)

theorem readPtr_writeBytes_disjoint (m : Mem) (a b : Nat) (bs : List Nat)
    (h : b + 8 ≤ a ∨ a + bs.length ≤ b) :
    readPtr (writeBytes m a bs) b = readPtr m b := by
  unfold readPtr PTR_SIZE
  apply readLE_shift
  intro i hi
  rw [writeBytes_apply, if_neg (by omega)]

theorem readPtr_writePtr_disjoint (m : Mem) (a b v : Nat) (h : b + 8 ≤ a ∨ a + 8 ≤ b) :
    readPtr (writePtr m a v) b = readPtr m b := by
  unfold writePtr
  apply readPtr_writeBytes_disjoint
  rw [leBytes_length]
  exact h

theorem readPtr_strcpy_disjoint (m : Mem) (a b : Nat) (t : List Nat)
    (h : b + 8 ≤ a ∨ a + t.length + 1 ≤ b) :
    readPtr (strcpy m a t) b = readPtr m b := by
  unfold strcpy
  apply readPtr_writeBytes_disjoint
  simp only [List.length_append, List.length_singleton]
  omega

theorem readStr_of_hasStr (t : List Nat) : ∀ (m : Mem) (a fuel : Nat),
    HasStr m a t → t.length < fuel → readStr m fuel a = some t := by
  induction t with
  | nil =>
    intro m a fuel h hf
    obtain ⟨_, h0, _⟩ := h
    cases fuel with
    | zero => omega
    | succ fuel => simpa [readStr] using h0
  | cons c t ih =>
    intro m a fuel h hf
    obtain ⟨hb, h0, hnz⟩ := h
    cases fuel with
    | zero => omega
    | succ fuel =>
      have hc : m a = c := by simpa using hb 0 (by simp)
      have hcz : c ≠ 0 := hnz c (by simp)
      have ht : HasStr m (a + 1) t := by
        refine ⟨?_, ?_, fun x hx => hnz x (by simp [hx])⟩
        · intro i hi
          have := hb (i + 1) (by simpa using hi)
          rw [show a + 1 + i = a + (i + 1) by omega]
          simpa using this
        · rw [show a + 1 + t.length = a + (c :: t).length by simp; omega]
          exact h0
      simp only [readStr, hc, hcz, if_false]
      rw [ih m (a + 1) fuel ht (by simpa using hf)]
      rfl

theorem hasStr_congr {m1 m2 : Mem} {a : Nat} {t : List Nat} (h : HasStr m1 a t)
    (heq : ∀ x, a ≤ x → x ≤ a + t.length → m2 x = m1 x) : HasStr m2 a t := by
  obtain ⟨hb, h0, hnz⟩ := h
  refine ⟨?_, ?_, hnz⟩
  · intro i hi
    rw [heq (a + i) (by omega) (by omega)]
    exact hb i hi
  · rw [heq (a + t.length) (by omega) (by omega)]
    exact h0

theorem hasStr_strcpy (m : Mem) (a : Nat) (t : List Nat) (ht : IsCStr t) :
    HasStr (strcpy m a t) a t := by
  refine ⟨?_, ?_, fun c hc => (Nat.pos_iff_ne_zero.mp (ht c hc).1)⟩
  · intro i hi
    unfold strcpy
    rw [writeBytes_apply, if_pos (by simp; omega)]
    have h1 : a + i - a = i := by omega
    rw [h1, List.getD_append _ _ _ _ hi]
    have hmem : t.getD i 0 ∈ t := by
      rw [List.getD_eq_getElem _ _ hi]
      exact List.getElem_mem hi
    exact Nat.mod_eq_of_lt (ht _ hmem).2
  · unfold strcpy
    rw [writeBytes_apply, if_pos (by simp)]
    have h1 : a + t.length - a = t.length := by omega
    rw [h1, List.getD_append_right _ _ _ _ (le_refl _)]
    simp

theorem hasStr_writePtr {m : Mem} {a : Nat} {t : List Nat} (h : HasStr m a t) (b v : Nat)
    (hd : b + 8 ≤ a ∨ a + t.length + 1 ≤ b) : HasStr (writePtr m b v) a t := by
  apply hasStr_congr h
  intro x h1 h2
  unfold writePtr
  rw [writeBytes_apply, leBytes_length, if_neg (by unfold PTR_SIZE; omega)]

namespace HomeAutomation

/-! ### Devices in memory -/

theorem create_device_outside (m : Mem) (p : Nat) (t : List Nat) (ht : t.length < 20)
    (x : Nat) (hx : x < p ∨ p + SIZEOF_SmartDevice ≤ x) : create_device m p t x = m x := by
  unfold SIZEOF_SmartDevice at hx
  simp only [create_device, writePtr, strcpy, OFF_type, OFF_turn_on, OFF_turn_off, PTR_SIZE,
    writeBytes_apply, leBytes_length, List.length_append, List.length_singleton]
  rw [if_neg (by omega), if_neg (by omega), if_neg (by omega)]

theorem create_device_hasStr (m : Mem) (p : Nat) (t : List Nat) (ht : IsCStr t)
    (hl : t.length < 20) : HasStr (create_device m p t) (p + OFF_type) t := by
  unfold create_device
  apply hasStr_writePtr _ _ _ (by unfold OFF_type OFF_turn_off; omega)
  apply hasStr_writePtr _ _ _ (by unfold OFF_type OFF_turn_on; omega)
  exact hasStr_strcpy _ _ _ ht

theorem create_device_turn_on (m : Mem) (p : Nat) (t : List Nat) :
    readPtr (create_device m p t) (p + OFF_turn_on) = Fn.light_on.addr := by
  unfold create_device
  rw [readPtr_writePtr_disjoint _ _ _ _ (by unfold OFF_turn_on OFF_turn_off; omega)]
  exact readPtr_writePtr _ _ _ (by decide)

theorem create_device_turn_off (m : Mem) (p : Nat) (t : List Nat) :
    readPtr (create_device m p t) (p + OFF_turn_off) = Fn.light_off.addr := by
  unfold create_device
  exact readPtr_writePtr _ _ _ (by decide)

theorem readPtr_congr {m1 m2 : Mem} {a : Nat} (h : ∀ x, a ≤ x → x < a + 8 → m2 x = m1 x) :
    readPtr m2 a = readPtr m1 a := by
  unfold readPtr PTR_SIZE
  apply readLE_shift
  intro i hi
  exact h (a + i) (by omega) (by omega)

theorem turn_on_light {s : State} {d : Nat} {t : List Nat} {fuel : Nat}
    (hs : HasStr s.mem (d + OFF_type) t)
    (hp : readPtr s.mem (d + OFF_turn_on) = Fn.light_on.addr) (hf : t.length < fuel) :
    turn_on fuel s d = some ⟨s.mem, s.out ++ (t ++ lit " Light ON\n"),
      s.calls ++ [(Fn.light_on, some d)]⟩ := by
  cases fuel with
  | zero => omega
  | succ fuel =>
    have hd : Fn.ofAddr Fn.light_on.addr = some Fn.light_on := by decide
    simp only [turn_on, hp, callDev, hd, light_on, readStr_of_hasStr t _ _ _ hs hf]
    rfl

theorem turn_off_light {s : State} {d : Nat} {t : List Nat} {fuel : Nat}
    (hs : HasStr s.mem (d + OFF_type) t)
    (hp : readPtr s.mem (d + OFF_turn_off) = Fn.light_off.addr) (hf : t.length < fuel) :
    turn_off fuel s d = some ⟨s.mem, s.out ++ (t ++ lit " Light OFF\n"),
      s.calls ++ [(Fn.light_off, some d)]⟩ := by
  cases fuel with
  | zero => omega
  | succ fuel =>
    have hd : Fn.ofAddr Fn.light_off.addr = some Fn.light_off := by decide
    simp only [turn_off, hp, callDev, hd, light_off, readStr_of_hasStr t _ _ _ hs hf]
    rfl

/-! ### Calls leave the heap alone and only append to the output -/

theorem call0_frame (s : State) (f : Nat) :
    call0 s f = (call0 ⟨s.mem, [], []⟩ f).map (State.after s) := by
  unfold call0
  cases Fn.ofAddr f with
  | none => rfl
  | some g =>
    cases g <;>
      simp [legacy_on, legacy_off, emergency_shutdown, eco_mode, turbo_mode, State.after,
        State.enter, State.printf]

theorem callDev_frame (fuel : Nat) : ∀ (s : State) (f d : Nat),
    callDev fuel s f d = (callDev fuel ⟨s.mem, [], []⟩ f d).map (State.after s) := by
  induction fuel with
  | zero => intro s f d; rfl
  | succ fuel ih =>
    intro s f d
    unfold callDev
    cases Fn.ofAddr f with
    | none => rfl
    | some g =>
      cases g
      case light_on =>
        simp only [light_on]
        cases readStr s.mem (fuel + 1) (d + OFF_type) <;>
          simp [State.after, State.enter, State.printf]
      case light_off =>
        simp only [light_off]
        cases readStr s.mem (fuel + 1) (d + OFF_type) <;>
          simp [State.after, State.enter, State.printf]
      case adapter_on =>
        simp only [adapter_on]
        rw [call0_frame (s.enter Fn.adapter_on (some d)),
          call0_frame (State.enter ⟨s.mem, [], []⟩ Fn.adapter_on (some d))]
        simp only [State.enter, Option.map_map]
        congr 1
        funext r
        simp [State.after, List.append_assoc]
      case adapter_off =>
        simp only [adapter_off]
        rw [call0_frame (s.enter Fn.adapter_off (some d)),
          call0_frame (State.enter ⟨s.mem, [], []⟩ Fn.adapter_off (some d))]
        simp only [State.enter, Option.map_map]
        congr 1
        funext r
        simp [State.after, List.append_assoc]
      case proxy_on =>
        simp only [proxy_on]
        cases readStr s.mem (fuel + 1) (readPtr s.mem (d + OFF_real_device) + OFF_type) with
        | none => rfl
        | some t =>
          simp only [Option.some_bind, State.enter, State.printf]
          rw [ih ⟨s.mem, s.out ++ _, s.calls ++ _⟩, ih ⟨s.mem, [] ++ _, [] ++ _⟩]
          simp only [Option.map_map]
          congr 1
          funext r
          simp [State.after, List.append_assoc]
      case proxy_off =>
        simp only [proxy_off]
        cases readStr s.mem (fuel + 1) (readPtr s.mem (d + OFF_real_device) + OFF_type) with
        | none => rfl
        | some t =>
          simp only [Option.some_bind, State.enter, State.printf]
          rw [ih ⟨s.mem, s.out ++ _, s.calls ++ _⟩, ih ⟨s.mem, [] ++ _, [] ++ _⟩]
          simp only [Option.map_map]
          congr 1
          funext r
          simp [State.after, List.append_assoc]
      all_goals rfl

theorem turn_on_frame (fuel : Nat) (s : State) (d : Nat) :
    turn_on fuel s d = (turn_on fuel ⟨s.mem, [], []⟩ d).map (State.after s) := by
  unfold turn_on
  exact callDev_frame fuel s _ d

theorem turn_off_frame (fuel : Nat) (s : State) (d : Nat) :
    turn_off fuel s d = (turn_off fuel ⟨s.mem, [], []⟩ d).map (State.after s) := by
  unfold turn_off
  exact callDev_frame fuel s _ d

theorem turn_on_mem {fuel : Nat} {s r : State} {d : Nat} (h : turn_on fuel s d = some r) :
    r.mem = s.mem := by
  rw [turn_on_frame] at h
  cases hx : turn_on fuel ⟨s.mem, [], []⟩ d with
  | none => rw [hx] at h; cases h
  | some r0 => rw [hx] at h; cases h; rfl

theorem turn_off_mem {fuel : Nat} {s r : State} {d : Nat} (h : turn_off fuel s d = some r) :
    r.mem = s.mem := by
  rw [turn_off_frame] at h
  cases hx : turn_off fuel ⟨s.mem, [], []⟩ d with
  | none => rw [hx] at h; cases h
  | some r0 => rw [hx] at h; cases h; rfl

theorem turn_on_of_obs {fuel : Nat} {m : Mem} {d : Nat} {oA : List Nat}
    {cA : List (Fn × Option Nat)}
    (hA : (turn_on fuel ⟨m, [], []⟩ d).map State.obs = some (oA, cA))
    (o : List Nat) (c : List (Fn × Option Nat)) :
    turn_on fuel ⟨m, o, c⟩ d = some ⟨m, o ++ oA, c ++ cA⟩ := by
  rw [turn_on_frame]
  cases hx : turn_on fuel ⟨m, [], []⟩ d with
  | none => rw [hx] at hA; cases hA
  | some r =>
    rw [hx] at hA
    simp only [Option.map_some', Option.some.injEq, State.obs, Prod.mk.injEq] at hA
    simp [State.after, hA.1, hA.2]

theorem turn_off_of_obs {fuel : Nat} {m : Mem} {d : Nat} {oA : List Nat}
    {cA : List (Fn × Option Nat)}
    (hA : (turn_off fuel ⟨m, [], []⟩ d).map State.obs = some (oA, cA))
    (o : List Nat) (c : List (Fn × Option Nat)) :
    turn_off fuel ⟨m, o, c⟩ d = some ⟨m, o ++ oA, c ++ cA⟩ := by
  rw [turn_off_frame]
  cases hx : turn_off fuel ⟨m, [], []⟩ d with
  | none => rw [hx] at hA; cases hA
  | some r =>
    rw [hx] at hA
    simp only [Option.map_some', Option.some.injEq, State.obs, Prod.mk.injEq] at hA
    simp [State.after, hA.1, hA.2]

/-! ### Facade -/

/-- C4: for every facade with members `light = A` and `fan = B` whose own
`turn_on` calls return (printing `oA`, `oB` and entering the functions `cA`,
`cB` when run alone on the current heap), `facade_all_on` returns, the heap is
unchanged, and its output and call log are A's followed by B's, each once;
the same holds for `facade_all_off` with `turn_off`. -/
theorem facade_invokes_in_order (fuel : Nat) (m : Mem) (h : HomeFacade)
    (o oA oB oA' oB' : List Nat) (c cA cB cA' cB' : List (Fn × Option Nat))
    (hA : (turn_on fuel ⟨m, [], []⟩ h.light).map State.obs = some (oA, cA))
    (hB : (turn_on fuel ⟨m, [], []⟩ h.fan).map State.obs = some (oB, cB))
    (hA' : (turn_off fuel ⟨m, [], []⟩ h.light).map State.obs = some (oA', cA'))
    (hB' : (turn_off fuel ⟨m, [], []⟩ h.fan).map State.obs = some (oB', cB')) :
    facade_all_on fuel ⟨m, o, c⟩ h = some ⟨m, o ++ oA ++ oB, c ++ cA ++ cB⟩ ∧
    facade_all_off fuel ⟨m, o, c⟩ h = some ⟨m, o ++ oA' ++ oB', c ++ cA' ++ cB'⟩ := by
  constructor
  · unfold facade_all_on
    rw [turn_on_of_obs hA o c, Option.some_bind, turn_on_of_obs hB]
  · unfold facade_all_off
    rw [turn_off_of_obs hA' o c, Option.some_bind, turn_off_of_obs hB']

theorem facade_invokes_in_order_witness :
    facade_all_on 32
        ⟨create_device (create_device zeroMem 4096 (lit "LivingRoom")) 4144 (lit "Bedroom"),
          [], []⟩ ⟨4096, 4144⟩
      = some ⟨create_device (create_device zeroMem 4096 (lit "LivingRoom")) 4144 (lit "Bedroom"),
          [] ++ lit "LivingRoom Light ON\n" ++ lit "Bedroom Light ON\n",
          [] ++ [(Fn.light_on, some 4096)] ++ [(Fn.light_on, some 4144)]⟩ ∧
    facade_all_off 32
        ⟨create_device (create_device zeroMem 4096 (lit "LivingRoom")) 4144 (lit "Bedroom"),
          [], []⟩ ⟨4096, 4144⟩
      = some ⟨create_device (create_device zeroMem 4096 (lit "LivingRoom")) 4144 (lit "Bedroom"),
          [] ++ lit "LivingRoom Light OFF\n" ++ lit "Bedroom Light OFF\n",
          [] ++ [(Fn.light_off, some 4096)] ++ [(Fn.light_off, some 4144)]⟩ :=
  facade_invokes_in_order 32 _ ⟨4096, 4144⟩ [] _ _ _ _ [] _ _ _ _
    (by decide) (by decide) (by decide) (by decide)

/-! ### Adapter -/

theorem lit_Legacy_length : (lit "Legacy").length = 6 := by decide

theorem create_legacy_adapter_outside (m : Mem) (p q x : Nat)
    (hp : x < p ∨ p + SIZEOF_LegacyAdapter ≤ x) (hq : x < q ∨ q + SIZEOF_LegacyDevice ≤ x) :
    create_legacy_adapter m p q x = m x := by
  unfold SIZEOF_LegacyAdapter at hp
  unfold SIZEOF_LegacyDevice at hq
  have hL := lit_Legacy_length
  simp only [create_legacy_adapter, writePtr, strcpy, OFF_type, OFF_turn_on, OFF_turn_off,
    OFF_legacy, OFF_old_switch_on, OFF_old_switch_off, PTR_SIZE,
    writeBytes_apply, leBytes_length, List.length_append, List.length_singleton, hL]
  rw [if_neg (by omega), if_neg (by omega), if_neg (by omega), if_neg (by omega),
    if_neg (by omega), if_neg (by omega)]

theorem create_legacy_adapter_fields (m : Mem) (p q : Nat) (hq : q < 2 ^ 64)
    (hpq : p + SIZEOF_LegacyAdapter ≤ q ∨ q + SIZEOF_LegacyDevice ≤ p) :
    readPtr (create_legacy_adapter m p q) (p + OFF_turn_on) = Fn.adapter_on.addr ∧
    readPtr (create_legacy_adapter m p q) (p + OFF_turn_off) = Fn.adapter_off.addr ∧
    readPtr (create_legacy_adapter m p q) (p + OFF_legacy) = q ∧
    readPtr (create_legacy_adapter m p q) (q + OFF_old_switch_on) = Fn.legacy_on.addr ∧
    readPtr (create_legacy_adapter m p q) (q + OFF_old_switch_off) = Fn.legacy_off.addr := by
  unfold SIZEOF_LegacyAdapter SIZEOF_LegacyDevice at hpq
  have hL := lit_Legacy_length
  unfold create_legacy_adapter OFF_type OFF_turn_on OFF_turn_off OFF_legacy OFF_old_switch_on
    OFF_old_switch_off
  refine ⟨?_, ?_, ?_, ?_, ?_⟩
  · rw [readPtr_writePtr_disjoint _ _ _ _ (by omega)]
    exact readPtr_writePtr _ _ _ (by decide)
  · exact readPtr_writePtr _ _ _ (by decide)
  · rw [readPtr_writePtr_disjoint _ _ _ _ (by omega),
      readPtr_writePtr_disjoint _ _ _ _ (by omega),
      readPtr_strcpy_disjoint _ _ _ _ (by omega),
      readPtr_writePtr_disjoint _ _ _ _ (by omega),
      readPtr_writePtr_disjoint _ _ _ _ (by omega)]
    exact readPtr_writePtr _ _ _ hq
  · rw [readPtr_writePtr_disjoint _ _ _ _ (by omega),
      readPtr_writePtr_disjoint _ _ _ _ (by omega),
      readPtr_strcpy_disjoint _ _ _ _ (by omega),
      readPtr_writePtr_disjoint _ _ _ _ (by omega)]
    exact readPtr_writePtr _ _ _ (by decide)
  · rw [readPtr_writePtr_disjoint _ _ _ _ (by omega),
      readPtr_writePtr_disjoint _ _ _ _ (by omega),
      readPtr_strcpy_disjoint _ _ _ _ (by omega)]
    exact readPtr_writePtr _ _ _ (by decide)

/-- C7: with a light `create_device(t)` at `pl` and then a legacy adapter at `p`
(its `LegacyDevice` at `q`) in disjoint blocks, `turn_on` (resp. `turn_off`)
through the `SmartDevice` interface of the adapter handle enters `adapter_on`
(resp. `adapter_off`) and then `legacy_on` (resp. `legacy_off`), once each and
nothing else, printing the legacy message; the same call `turn_on` on the light
prints `<t> Light ON`, which differs from the adapter's output. -/
theorem adapter_translates (m : Mem) (pl p q : Nat) (t : List Nat) (fuel : Nat)
    (o : List Nat) (c : List (Fn × Option Nat))
    (ht : IsCStr t) (hl : t.length < 20) (hf : t.length < fuel) (hq : q < 2 ^ 64)
    (hpq : p + SIZEOF_LegacyAdapter ≤ q ∨ q + SIZEOF_LegacyDevice ≤ p)
    (hlp : pl + SIZEOF_SmartDevice ≤ p ∨ p + SIZEOF_LegacyAdapter ≤ pl)
    (hlq : pl + SIZEOF_SmartDevice ≤ q ∨ q + SIZEOF_LegacyDevice ≤ pl) :
    turn_on fuel ⟨create_legacy_adapter (create_device m pl t) p q, o, c⟩ p
      = some ⟨create_legacy_adapter (create_device m pl t) p q,
          o ++ lit "Legacy device is ON (manual switch)\n",
          c ++ [(Fn.adapter_on, some p), (Fn.legacy_on, none)]⟩ ∧
    turn_off fuel ⟨create_legacy_adapter (create_device m pl t) p q, o, c⟩ p
      = some ⟨create_legacy_adapter (create_device m pl t) p q,
          o ++ lit "Legacy device is OFF (manual switch)\n",
          c ++ [(Fn.adapter_off, some p), (Fn.legacy_off, none)]⟩ ∧
    turn_on fuel ⟨create_legacy_adapter (create_device m pl t) p q, o, c⟩ pl
      = some ⟨create_legacy_adapter (create_device m pl t) p q,
          o ++ (t ++ lit " Light ON\n"), c ++ [(Fn.light_on, some pl)]⟩ ∧
    o ++ (t ++ lit " Light ON\n") ≠ o ++ lit "Legacy device is ON (manual switch)\n" := by
  obtain ⟨f1, f2, f3, f4, f5⟩ := create_legacy_adapter_fields (create_device m pl t) p q hq hpq
  have hfuel : fuel ≠ 0 := by omega
  obtain ⟨n, rfl⟩ := Nat.exists_eq_succ_of_ne_zero hfuel
  have d1 : Fn.ofAddr Fn.adapter_on.addr = some Fn.adapter_on := by decide
  have d2 : Fn.ofAddr Fn.adapter_off.addr = some Fn.adapter_off := by decide
  have d3 : Fn.ofAddr Fn.legacy_on.addr = some Fn.legacy_on := by decide
  have d4 : Fn.ofAddr Fn.legacy_off.addr = some Fn.legacy_off := by decide
  unfold SIZEOF_SmartDevice SIZEOF_LegacyAdapter at hlp
  unfold SIZEOF_SmartDevice SIZEOF_LegacyDevice at hlq
  refine ⟨?_, ?_, ?_, ?_⟩
  · simp only [turn_on, f1, callDev, d1, adapter_on, State.enter, f3, f4, call0, d3, legacy_on,
      State.printf, List.append_assoc, List.singleton_append]
  · simp only [turn_off, f2, callDev, d2, adapter_off, State.enter, f3, f5, call0, d4,
      legacy_off, State.printf, List.append_assoc, List.singleton_append]
  · apply turn_on_light (s := ⟨create_legacy_adapter (create_device m pl t) p q, o, c⟩) _ _ hf
    · apply hasStr_congr (create_device_hasStr m pl t ht hl)
      intro x h1 h2
      unfold OFF_type at h1 h2
      exact create_legacy_adapter_outside _ _ _ _
        (by unfold SIZEOF_LegacyAdapter; omega) (by unfold SIZEOF_LegacyDevice; omega)
    · rw [← create_device_turn_on m pl t]
      apply readPtr_congr
      intro x h1 h2
      unfold OFF_turn_on at h1 h2
      exact create_legacy_adapter_outside _ _ _ _
        (by unfold SIZEOF_LegacyAdapter; omega) (by unfold SIZEOF_LegacyDevice; omega)
  · intro heq
    have h1 := congrArg List.length (List.append_cancel_left heq)
    have h2 : (lit " Light ON\n").length = 10 := by decide
    have h3 : (lit "Legacy device is ON (manual switch)\n").length = 36 := by decide
    rw [List.length_append, h2, h3] at h1
    omega

theorem adapter_translates_witness :
    turn_on 32 ⟨create_legacy_adapter (create_device zeroMem 4096 (lit "LivingRoom")) 4192 4240,
        [], []⟩ 4192
      = some ⟨create_legacy_adapter (create_device zeroMem 4096 (lit "LivingRoom")) 4192 4240,
          [] ++ lit "Legacy device is ON (manual switch)\n",
          [] ++ [(Fn.adapter_on, some 4192), (Fn.legacy_on, none)]⟩ ∧
    turn_off 32 ⟨create_legacy_adapter (create_device zeroMem 4096 (lit "LivingRoom")) 4192 4240,
        [], []⟩ 4192
      = some ⟨create_legacy_adapter (create_device zeroMem 4096 (lit "LivingRoom")) 4192 4240,
          [] ++ lit "Legacy device is OFF (manual switch)\n",
          [] ++ [(Fn.adapter_off, some 4192), (Fn.legacy_off, none)]⟩ ∧
    turn_on 32 ⟨create_legacy_adapter (create_device zeroMem 4096 (lit "LivingRoom")) 4192 4240,
        [], []⟩ 4096
      = some ⟨create_legacy_adapter (create_device zeroMem 4096 (lit "LivingRoom")) 4192 4240,
          [] ++ (lit "LivingRoom" ++ lit " Light ON\n"), [] ++ [(Fn.light_on, some 4096)]⟩ ∧
    [] ++ (lit "LivingRoom" ++ lit " Light ON\n")
      ≠ [] ++ lit "Legacy device is ON (manual switch)\n" :=
  adapter_translates zeroMem 4096 4192 4240 (lit "LivingRoom") 32 [] []
    (by decide) (by decide) (by decide) (by decide) (by decide) (by decide) (by decide)

/-! ### Proxy -/

theorem lit_ProxyDevice :
    lit "ProxyDevice" = [80, 114, 111, 120, 121, 68, 101, 118, 105, 99, 101] := by decide

theorem create_proxy_real_device (m : Mem) (p real : Nat) :
    readPtr (create_proxy m p real) (p + OFF_real_device) = 0x76654479786f7250 := by
  unfold create_proxy OFF_real_device OFF_type OFF_turn_on OFF_turn_off
  rw [readPtr_writePtr_disjoint _ _ _ _ (by omega), readPtr_writePtr_disjoint _ _ _ _ (by omega)]
  unfold readPtr PTR_SIZE strcpy
  rw [readLE_shift 8 _ (fun i => (lit "ProxyDevice" ++ [0]).getD i 0 % 256) (p + 0) 0]
  · decide
  · intro i hi
    rw [writeBytes_apply, if_pos (by rw [lit_ProxyDevice]; simp; omega)]
    congr 2
    omega

theorem create_proxy_turn_on (m : Mem) (p real : Nat) :
    readPtr (create_proxy m p real) (p + OFF_turn_on) = Fn.proxy_on.addr := by
  unfold create_proxy OFF_turn_on OFF_turn_off
  rw [readPtr_writePtr_disjoint _ _ _ _ (by omega)]
  exact readPtr_writePtr _ _ _ (by decide)

theorem create_proxy_turn_off (m : Mem) (p real : Nat) :
    readPtr (create_proxy m p real) (p + OFF_turn_off) = Fn.proxy_off.addr := by
  unfold create_proxy
  exact readPtr_writePtr _ _ _ (by decide)

theorem create_proxy_same_heap (m : Mem) (p real real2 : Nat) :
    create_proxy m p real = create_proxy m p real2 := by
  funext x
  simp only [create_proxy, writePtr, strcpy, OFF_real_device, OFF_type, OFF_turn_on,
    OFF_turn_off, PTR_SIZE, writeBytes_apply, leBytes_length, List.length_append,
    List.length_singleton, lit_ProxyDevice, List.length_cons, List.length_nil]
  by_cases h : p + 0 ≤ x ∧ x < p + 0 + 8
  · have h2 : p + 0 ≤ x ∧
        x < p + 0 + (0 + 1 + 1 + 1 + 1 + 1 + 1 + 1 + 1 + 1 + 1 + 1 + 1) := by omega
    simp only [h2, and_self, if_true]
  · simp only [h, if_false]

/-- C3 (the code departs from it): `create_proxy` stores `real` in
`proxy->real_device` and then, through the `SmartDevice*` view of the same
8-byte block, copies "ProxyDevice" over those very bytes (both fields are at
offset 0).  So the heap after `create_proxy` is the same whatever handle was
wrapped; for every heap, address and wrapped handle the field `real_device`
afterwards holds the bytes "ProxyDev", not the handle; and in the scenario of
`main` (the proxy of the LivingRoom light) `turn_on` on the proxy does not
return the log line followed by the light's output: for every fuel it faults. -/
theorem create_proxy_loses_real_device :
    (∀ (m : Mem) (p real real2 : Nat), create_proxy m p real = create_proxy m p real2) ∧
    (∀ (m : Mem) (p real : Nat),
      readPtr (create_proxy m p real) (p + OFF_real_device) = 0x76654479786f7250) ∧
    (∀ fuel : Nat,
      turn_on fuel
        ⟨create_proxy (create_device zeroMem 4096 (lit "LivingRoom")) 4288 4096, [], []⟩ 4288
        = none) := by
  refine ⟨create_proxy_same_heap, create_proxy_real_device, ?_⟩
  intro fuel
  have hp := create_proxy_turn_on (create_device zeroMem 4096 (lit "LivingRoom")) 4288 4096
  have hr := create_proxy_real_device (create_device zeroMem 4096 (lit "LivingRoom")) 4288 4096
  have hd : Fn.ofAddr Fn.proxy_on.addr = some Fn.proxy_on := by decide
  have hz : ∀ x, 8531300357625573968 ≤ x →
      create_proxy (create_device zeroMem 4096 (lit "LivingRoom")) 4288 4096 x = 0 := by
    intro x hx
    have hL : (lit "LivingRoom").length = 10 := by decide
    simp only [create_proxy, create_device, writePtr, strcpy, OFF_real_device, OFF_type,
      OFF_turn_on, OFF_turn_off, PTR_SIZE, writeBytes_apply, leBytes_length, List.length_append,
      List.length_singleton, lit_ProxyDevice, List.length_cons, List.length_nil, hL]
    rw [if_neg (by omega), if_neg (by omega), if_neg (by omega), if_neg (by omega),
      if_neg (by omega), if_neg (by omega), if_neg (by omega)]
    rfl
  have hf : readPtr (create_proxy (create_device zeroMem 4096 (lit "LivingRoom")) 4288 4096)
      (8531300357625573968 + OFF_turn_on) = 0 := by
    unfold readPtr PTR_SIZE
    rw [readLE_shift 8 _ zeroMem _ 0]
    · decide
    · intro i _
      rw [hz _ (by omega)]
      rfl
  cases fuel with
  | zero => rfl
  | succ n =>
    simp only [turn_on, hp, callDev, hd, proxy_on, hr]
    have h0 := hz (8531300357625573968 + OFF_type) (by omega)
    have hs : readStr (create_proxy (create_device zeroMem 4096 (lit "LivingRoom")) 4288 4096)
        (n + 1) (8531300357625573968 + OFF_type) = some [] := by
      simp only [readStr]
      rw [if_pos h0]
    rw [hs, Option.some_bind]
    simp only [State.enter, State.printf]
    rw [hf]
    cases n with
    | zero => rfl
    | succ k =>
      have hn : Fn.ofAddr 0 = none := by decide
      simp only [callDev, hn]

/-- C9 (the code departs from it): a handle made by `create_proxy` has its
`turn_on` / `turn_off` fields at offsets 24 and 32 of a block of
`sizeof(DeviceProxy) = 8` bytes, so they lie outside the block and the next
construction overwrites them.  For every heap and all wrapped handles, after
`P1 = create_proxy(r1)` at `p` the binding `P1->turn_on` is `proxy_on` and
`P1->turn_off` is `proxy_off`; a second `create_proxy(r2)` whose block is 16
bytes further changes `P1->turn_on` to the bytes "ice", and one whose block is
32 bytes further changes `P1->turn_off` to the bytes "ProxyDev". -/
theorem create_proxy_changes_bindings (m : Mem) (p r1 r2 : Nat) :
    readPtr (create_proxy m p r1) (p + OFF_turn_on) = Fn.proxy_on.addr ∧
    readPtr (create_proxy m p r1) (p + OFF_turn_off) = Fn.proxy_off.addr ∧
    readPtr (create_proxy (create_proxy m p r1) (p + 16) r2) (p + OFF_turn_on) = 0x656369 ∧
    readPtr (create_proxy (create_proxy m p r1) (p + 32) r2) (p + OFF_turn_off)
      = 0x76654479786f7250 ∧
    Fn.proxy_on.addr ≠ 0x656369 ∧ Fn.proxy_off.addr ≠ 0x76654479786f7250 := by
  refine ⟨create_proxy_turn_on m p r1, create_proxy_turn_off m p r1, ?_, ?_,
    by decide, by decide⟩
  · unfold readPtr PTR_SIZE
    rw [readLE_shift 8 _ (fun i => [105, 99, 101, 0, 0, 0, 0, 0].getD i 0) (p + OFF_turn_on) 0]
    · decide
    · intro i hi
      simp only [create_proxy, writePtr, strcpy, OFF_real_device, OFF_type, OFF_turn_on,
        OFF_turn_off, PTR_SIZE, writeBytes_apply, leBytes_length, List.length_append,
        List.length_singleton, lit_ProxyDevice, List.length_cons, List.length_nil]
      interval_cases i <;> simp [Fn.addr, leBytes]
  · exact create_proxy_real_device (create_proxy m p r1) (p + 32) r2

/-! ### State holder -/

/-- C5: `print_state` appends to the output a line fixed by the current state
value alone: "Device is OFF" for `OFF`, "Device is ON" for `ON`, "Device is in
STANDBY" for `STANDBY`; two devices with equal state print the same; after any
history of assignments only the last assigned state matters; and each of the
three lines is one line (it holds exactly one newline, at its end). -/
theorem print_state_pure :
    (∀ (s : State) (d : StatefulDevice), d.state = OFF →
      print_state s d = s.printf (lit "Device is OFF\n")) ∧
    (∀ (s : State) (d : StatefulDevice), d.state = ON →
      print_state s d = s.printf (lit "Device is ON\n")) ∧
    (∀ (s : State) (d : StatefulDevice), d.state = STANDBY →
      print_state s d = s.printf (lit "Device is in STANDBY\n")) ∧
    (∀ (s : State) (d1 d2 : StatefulDevice), d1.state = d2.state →
      print_state s d1 = print_state s d2) ∧
    (∀ (s : State) (d0 : StatefulDevice) (hist : List DeviceState) (v : DeviceState),
      print_state s (set_state (hist.foldl set_state d0) v) = print_state s ⟨v⟩) ∧
    (∀ l ∈ [lit "Device is OFF\n", lit "Device is ON\n", lit "Device is in STANDBY\n"],
      l.count 10 = 1 ∧ l.getLast? = some 10) := by
  refine ⟨?_, ?_, ?_, ?_, ?_, by decide⟩
  · intro s d h
    simp [print_state, h, OFF, ON]
  · intro s d h
    simp [print_state, h]
  · intro s d h
    simp [print_state, h, OFF, ON, STANDBY]
  · intro s d1 d2 h
    simp [print_state, h]
  · intro s d0 hist v
    rfl

theorem print_state_pure_witness :
    print_state ⟨zeroMem, [], []⟩ ⟨OFF⟩
      = State.printf ⟨zeroMem, [], []⟩ (lit "Device is OFF\n") ∧
    print_state ⟨zeroMem, [], []⟩ ⟨ON⟩
      = State.printf ⟨zeroMem, [], []⟩ (lit "Device is ON\n") ∧
    print_state ⟨zeroMem, [], []⟩ (set_state ⟨ON⟩ STANDBY)
      = State.printf ⟨zeroMem, [], []⟩ (lit "Device is in STANDBY\n") ∧
    print_state ⟨zeroMem, [], []⟩ (set_state ⟨ON⟩ STANDBY)
      = print_state ⟨zeroMem, [], []⟩ ⟨STANDBY⟩ :=
  ⟨print_state_pure.1 _ _ rfl, print_state_pure.2.1 _ _ rfl, print_state_pure.2.2.1 _ _ rfl,
   print_state_pure.2.2.2.1 _ _ _ rfl⟩

/-! ### Observer registry -/

theorem obsInv_init (H : Type) : ObsInv (ObsState.init H) [] := by
  refine ⟨by simp [ObsState.init], by simp [ObsState.init], ?_⟩
  intro i hi
  simp [ObsState.init, List.getElem?_replicate, hi]

theorem obsInv_add {H : Type} {s : ObsState H} {regs : List H} (inv : ObsInv s regs) (h : H) :
    ∃ s1, add_observer s h = some s1 ∧ ObsInv s1 (regs ++ [h]) ∧ s1.invoked = s.invoked ∧
      (MAX_OBSERVERS ≤ regs.length → s1 = s) := by
  obtain ⟨hlen, hcount, hslots⟩ := inv
  by_cases hlt : regs.length < MAX_OBSERVERS
  · have hc : s.observer_count = (regs.length : Int) := by
      rw [hcount, Nat.min_eq_left (le_of_lt hlt)]
    have hw : arrWrite s.observers s.observer_count (some h)
        = some (s.observers.set regs.length (some h)) := by
      simp [arrWrite, hc, hlen, hlt]
    refine ⟨{ s with observers := s.observers.set regs.length (some h),
                     observer_count := s.observer_count + 1 }, ?_, ⟨?_, ?_, ?_⟩, rfl, ?_⟩
    · have : s.observer_count < (MAX_OBSERVERS : Int) := by rw [hc]; exact_mod_cast hlt
      simp [add_observer, this, hw]
    · simpa using hlen
    · simp only [hc, List.length_append, List.length_singleton]
      have : min (regs.length + 1) MAX_OBSERVERS = regs.length + 1 :=
        Nat.min_eq_left hlt
      rw [this]; push_cast; rfl
    · intro i hi
      simp only [List.getElem?_set, hlen]
      by_cases hi2 : regs.length = i
      · subst hi2
        simp [hlt]
      · simp only [hi2, if_false]
        rw [hslots i hi]
        congr 1
        by_cases hi3 : i < regs.length
        · rw [List.getElem?_append_left hi3]
        · have : regs.length < i := by omega
          rw [List.getElem?_eq_none (by omega), List.getElem?_eq_none (by simp; omega)]
    · intro hge; omega
  · have hge : MAX_OBSERVERS ≤ regs.length := by omega
    have hc : s.observer_count = (MAX_OBSERVERS : Int) := by
      rw [hcount, Nat.min_eq_right hge]
    refine ⟨s, ?_, ⟨hlen, ?_, ?_⟩, rfl, fun _ => rfl⟩
    · simp [add_observer, hc]
    · rw [hc]; simp only [List.length_append, List.length_singleton]
      rw [Nat.min_eq_right (by omega)]
    · intro i hi
      rw [hslots i hi, List.getElem?_append_left (by omega)]

theorem obsInv_invoked {H : Type} {s : ObsState H} {regs : List H} (inv : ObsInv s regs)
    (tr : List H) : ObsInv { s with invoked := tr } regs :=
  ⟨inv.len, inv.count, inv.slots⟩

theorem addAll_spec {H : Type} (cbs : List H) :
    ∀ (s : ObsState H) (regs : List H), ObsInv s regs →
      ∃ s1, addAll s cbs = some s1 ∧ ObsInv s1 (regs ++ cbs) ∧ s1.invoked = s.invoked ∧
        (MAX_OBSERVERS ≤ regs.length → s1 = s) := by
  induction cbs with
  | nil => intro s regs inv; exact ⟨s, rfl, by simpa using inv, rfl, fun _ => rfl⟩
  | cons h cbs ih =>
    intro s regs inv
    obtain ⟨s1, h1, inv1, htr, hfull⟩ := obsInv_add inv h
    obtain ⟨s2, h2, inv2, htr2, hfull2⟩ := ih s1 (regs ++ [h]) inv1
    refine ⟨s2, ?_, by simpa using inv2, by rw [htr2, htr], ?_⟩
    · simp [addAll, h1, h2]
    · intro hge
      rw [hfull2 (by simp; omega), hfull hge]

theorem invoke_spec {H : Type} (body : H → List H) {s : ObsState H} {regs : List H}
    (inv : ObsInv s regs) (h : H) :
    ∃ s1, invoke body s h = some s1 ∧ ObsInv s1 (regs ++ body h) ∧
      s1.invoked = s.invoked ++ [h] ∧
      (MAX_OBSERVERS ≤ regs.length ∨ body h = [] →
        s1 = { s with invoked := s.invoked ++ [h] }) := by
  obtain ⟨s1, h1, inv1, htr, hfull⟩ :=
    addAll_spec (body h) { s with invoked := s.invoked ++ [h] } regs (obsInv_invoked inv _)
  refine ⟨s1, h1, inv1, htr, ?_⟩
  intro hq
  cases hq with
  | inl hge => exact hfull hge
  | inr hb =>
    have h2 : invoke body s h = some { s with invoked := s.invoked ++ [h] } := by
      simp [invoke, hb, addAll]
    have h3 : invoke body s h = some s1 := h1
    rw [h3] at h2
    exact Option.some.inj h2

theorem notify_loop_quiet {H : Type} (body : H → List H) {s : ObsState H} {regs : List H}
    (inv : ObsInv s regs) (hq : MAX_OBSERVERS ≤ regs.length ∨ ∀ h ∈ regs, body h = []) :
    ∀ (fuel k : Nat) (acc : List H), k ≤ min regs.length MAX_OBSERVERS →
      min regs.length MAX_OBSERVERS ≤ fuel + k →
      notify_loop body fuel { s with invoked := acc } (k : Int)
        = some { s with invoked := acc ++ (regs.take MAX_OBSERVERS).drop k } := by
  obtain ⟨hlen, hcount, hslots⟩ := inv
  intro fuel
  induction fuel with
  | zero =>
    intro k acc hk hf
    have hk2 : k = min regs.length MAX_OBSERVERS := by omega
    have : ¬ ((k : Int) < s.observer_count) := by rw [hcount, hk2]; simp
    simp only [notify_loop, this, if_false]
    rw [List.drop_eq_nil_of_le (by simp [List.length_take]; omega)]
    simp
  | succ fuel ih =>
    intro k acc hk hf
    by_cases hlt : k < min regs.length MAX_OBSERVERS
    · have h1 : (k : Int) < s.observer_count := by rw [hcount]; exact_mod_cast hlt
      have hkr : k < regs.length := lt_of_lt_of_le hlt (Nat.min_le_left _ _)
      have hkm : k < MAX_OBSERVERS := lt_of_lt_of_le hlt (Nat.min_le_right _ _)
      have hrd : arrRead s.observers (k : Int) = some (some regs[k]) := by
        simp only [arrRead, Int.toNat_ofNat, hslots k hkm]
        simp [List.getElem?_eq_getElem hkr]
      have hq2 : MAX_OBSERVERS ≤ regs.length ∨ body regs[k] = [] := by
        cases hq with
        | inl hge => exact Or.inl hge
        | inr hb => exact Or.inr (hb _ (List.getElem_mem hkr))
      obtain ⟨s1, hs1, _, _, hs1eq⟩ :=
        invoke_spec body (obsInv_invoked ⟨hlen, hcount, hslots⟩ acc) regs[k]
      have hinv : invoke body { s with invoked := acc } regs[k]
          = some { s with invoked := acc ++ [regs[k]] } := by
        rw [hs1, hs1eq hq2]
      simp only [notify_loop, h1, if_true, hrd, hinv, Option.some_bind]
      have := ih (k + 1) (acc ++ [regs[k]]) (by omega) (by omega)
      rw [show ((k : Int) + 1) = ((k + 1 : Nat) : Int) by push_cast; rfl, this]
      congr 2
      have hkt : k < (regs.take MAX_OBSERVERS).length := by
        simp [List.length_take]; omega
      rw [List.drop_eq_getElem_cons hkt]
      simp [List.getElem_take]
    · have hk2 : k = min regs.length MAX_OBSERVERS := by omega
      have : ¬ ((k : Int) < s.observer_count) := by rw [hcount, hk2]; simp
      simp only [notify_loop, this, if_false]
      rw [List.drop_eq_nil_of_le (by simp [List.length_take]; omega)]
      simp

theorem notify_quiet {H : Type} (body : H → List H) {s : ObsState H} {regs : List H}
    (inv : ObsInv s regs) (hq : MAX_OBSERVERS ≤ regs.length ∨ ∀ h ∈ regs, body h = []) :
    notify_observers body s
      = some { s with invoked := s.invoked ++ regs.take MAX_OBSERVERS } := by
  have h := notify_loop_quiet body inv hq MAX_OBSERVERS 0 s.invoked
    (Nat.zero_le _) (by simp)
  simp only [Nat.cast_zero, List.drop_zero] at h
  exact h

theorem notify_loop_general {H : Type} (body : H → List H) :
    ∀ (fuel k : Nat) (s : ObsState H) (regs : List H), ObsInv s regs →
      k ≤ MAX_OBSERVERS → MAX_OBSERVERS ≤ fuel + k →
      ∃ s1 extra tr, notify_loop body fuel s (k : Int) = some s1 ∧
        ObsInv s1 (regs ++ extra) ∧ s1.invoked = s.invoked ++ tr ∧
        ∀ h ∈ extra, ∃ g ∈ tr, h ∈ body g := by
  intro fuel
  induction fuel with
  | zero =>
    intro k s regs inv hk hf
    have hk2 : k = MAX_OBSERVERS := by omega
    have : ¬ ((k : Int) < s.observer_count) := by
      rw [inv.count, hk2]
      have := Nat.min_le_right regs.length MAX_OBSERVERS
      omega
    refine ⟨s, [], [], ?_, by simpa using inv, by simp, by simp⟩
    simp only [notify_loop, this, if_false]
  | succ fuel ih =>
    intro k s regs inv hk hf
    by_cases hlt : k < min regs.length MAX_OBSERVERS
    · have h1 : (k : Int) < s.observer_count := by rw [inv.count]; exact_mod_cast hlt
      have hkr : k < regs.length := lt_of_lt_of_le hlt (Nat.min_le_left _ _)
      have hkm : k < MAX_OBSERVERS := lt_of_lt_of_le hlt (Nat.min_le_right _ _)
      have hrd : arrRead s.observers (k : Int) = some (some regs[k]) := by
        simp only [arrRead, Int.toNat_ofNat, inv.slots k hkm]
        simp [List.getElem?_eq_getElem hkr]
      obtain ⟨s1, hs1, inv1, htr1, _⟩ := invoke_spec body inv regs[k]
      obtain ⟨s2, extra2, tr2, hs2, inv2, htr2, hprov2⟩ :=
        ih (k + 1) s1 (regs ++ body regs[k]) inv1 (by omega) (by omega)
      refine ⟨s2, body regs[k] ++ extra2, regs[k] :: tr2, ?_, ?_, ?_, ?_⟩
      · simp only [notify_loop, h1, if_true, hrd, hs1, Option.some_bind]
        rw [show ((k : Int) + 1) = ((k + 1 : Nat) : Int) by push_cast; rfl, hs2]
      · simpa [List.append_assoc] using inv2
      · rw [htr2, htr1]; simp
      · intro h hh
        rcases List.mem_append.mp hh with hb | he
        · exact ⟨regs[k], by simp, hb⟩
        · obtain ⟨g, hg, hgb⟩ := hprov2 h he
          exact ⟨g, by simp [hg], hgb⟩
    · have : ¬ ((k : Int) < s.observer_count) := by
        rw [inv.count]; exact_mod_cast hlt
      refine ⟨s, [], [], ?_, by simpa using inv, by simp, by simp⟩
      simp only [notify_loop, this, if_false]

theorem notify_general {H : Type} (body : H → List H) {s : ObsState H} {regs : List H}
    (inv : ObsInv s regs) :
    ∃ s1 extra tr, notify_observers body s = some s1 ∧
      ObsInv s1 (regs ++ extra) ∧ s1.invoked = s.invoked ++ tr ∧
      ∀ h ∈ extra, ∃ g ∈ tr, h ∈ body g := by
  have h := notify_loop_general body MAX_OBSERVERS 0 s regs inv (Nat.zero_le _) (by simp)
  simpa [notify_observers] using h

theorem runOps_spec {H : Type} (body : H → List H) (ops : List (ObsOp H)) :
    ∀ (s : ObsState H) (regs pre : List H), ObsInv s regs →
      (∀ h ∈ regs, h ∈ pre ∨ ∃ g ∈ s.invoked, h ∈ body g) →
      ∃ s1 regs1, runOps body s ops = some s1 ∧ ObsInv s1 regs1 ∧
        (∀ h ∈ regs1, h ∈ pre ++ registered ops ∨ ∃ g ∈ s1.invoked, h ∈ body g) := by
  induction ops with
  | nil =>
    intro s regs pre inv hp
    exact ⟨s, regs, rfl, inv, by simpa [registered] using hp⟩
  | cons op ops ih =>
    intro s regs pre inv hp
    cases op with
    | add h =>
      obtain ⟨s1, h1, inv1, htr, _⟩ := obsInv_add inv h
      have hp1 : ∀ x ∈ regs ++ [h], x ∈ pre ++ [h] ∨ ∃ g ∈ s1.invoked, x ∈ body g := by
        intro x hx
        rcases List.mem_append.mp hx with hx1 | hx2
        · rcases hp x hx1 with hl | ⟨g, hg, hgb⟩
          · exact Or.inl (List.mem_append_left _ hl)
          · exact Or.inr ⟨g, by rw [htr]; exact hg, hgb⟩
        · exact Or.inl (List.mem_append_right _ hx2)
      obtain ⟨s2, regs2, h2, inv2, hp2⟩ := ih s1 (regs ++ [h]) (pre ++ [h]) inv1 hp1
      refine ⟨s2, regs2, ?_, inv2, ?_⟩
      · simp [runOps, ObsOp.step, h1, h2]
      · simpa [registered, List.append_assoc] using hp2
    | notify =>
      obtain ⟨s1, extra, tr, h1, inv1, htr, hprov⟩ := notify_general body inv
      have hp1 : ∀ x ∈ regs ++ extra, x ∈ pre ∨ ∃ g ∈ s1.invoked, x ∈ body g := by
        intro x hx
        rcases List.mem_append.mp hx with hx1 | hx2
        · rcases hp x hx1 with hl | ⟨g, hg, hgb⟩
          · exact Or.inl hl
          · exact Or.inr ⟨g, by rw [htr]; exact List.mem_append_left _ hg, hgb⟩
        · obtain ⟨g, hg, hgb⟩ := hprov x hx2
          exact Or.inr ⟨g, by rw [htr]; exact List.mem_append_right _ hg, hgb⟩
      obtain ⟨s2, regs2, h2, inv2, hp2⟩ := ih s1 (regs ++ extra) pre inv1 hp1
      refine ⟨s2, regs2, ?_, inv2, ?_⟩
      · simp [runOps, ObsOp.step, h1, h2]
      · simpa [registered] using hp2

theorem addAll_notify {H : Type} (body : H → List H) (cbs : List H)
    (hq : MAX_OBSERVERS ≤ cbs.length ∨ ∀ h ∈ cbs, body h = []) :
    ((addAll (ObsState.init H) cbs).bind (notify_observers body)).map ObsState.invoked
      = some (cbs.take MAX_OBSERVERS) := by
  obtain ⟨s1, h1, inv1, htr, _⟩ := addAll_spec cbs (ObsState.init H) [] (obsInv_init H)
  simp only [List.nil_append] at inv1
  rw [h1, Option.some_bind, notify_quiet body inv1 hq, htr]
  simp [ObsState.init]

/-- C1 (as amended): starting from the empty registry, registering
`N ≤ MAX_OBSERVERS` callbacks with `add_observer` and then calling
`notify_observers` returns, and the log of invoked callbacks is exactly the
registered sequence, in registration order (a callback registered twice appears
twice), provided that the callbacks leave the registry alone when they run
(`body h = []`), or that `N = MAX_OBSERVERS` and they use it through
`add_observer` only, which is then a no-op. -/
theorem notify_invokes_registered {H : Type} (body : H → List H) (cbs : List H)
    (hN : cbs.length ≤ MAX_OBSERVERS)
    (hq : cbs.length = MAX_OBSERVERS ∨ ∀ h ∈ cbs, body h = []) :
    ((addAll (ObsState.init H) cbs).bind (notify_observers body)).map ObsState.invoked
      = some cbs := by
  rw [addAll_notify body cbs (hq.imp (fun h => le_of_eq h.symm) id),
    List.take_of_length_le hN]

theorem notify_invokes_registered_witness :
    ([7, 9, 7].length ≤ MAX_OBSERVERS ∧
     ((addAll (ObsState.init Nat) [7, 9, 7]).bind (notify_observers demoBody)).map
        ObsState.invoked = some [7, 9, 7]) ∧
    ([8, 8, 2, 3, 4].length ≤ MAX_OBSERVERS ∧
     ((addAll (ObsState.init Nat) [8, 8, 2, 3, 4]).bind (notify_observers demoBody)).map
        ObsState.invoked = some [8, 8, 2, 3, 4]) :=
  ⟨⟨by decide, notify_invokes_registered demoBody [7, 9, 7] (by decide) (Or.inr (by decide))⟩,
   ⟨by decide,
    notify_invokes_registered demoBody [8, 8, 2, 3, 4] (by decide) (Or.inl (by decide))⟩⟩

/-- C1 (as stated, it fails): one callback is registered (`N = 1 ≤ 5`), and it
calls `add_observer` on callback 9 when it runs.  `notify_observers` then invokes
callback 8 and, the count having grown to 2, callback 9 as well: the log is
`[8, 9]`, not the registered sequence `[8]`. -/
theorem notify_reentrant_callback :
    [8].length ≤ MAX_OBSERVERS ∧
    ((addAll (ObsState.init Nat) [8]).bind (notify_observers demoBody)).map
        ObsState.invoked = some [8, 9] ∧
    ((addAll (ObsState.init Nat) [8]).bind (notify_observers demoBody)).map
        ObsState.invoked ≠ some [8] := by
  decide

/-- C10 (as amended): every sequence of `add_observer` / `notify_observers`
calls from the initial registry, the invoked callbacks calling `add_observer`
as they please, runs without a fault (no access outside the 5-slot array, no
call through a null slot) and ends in a state where
`0 ≤ observer_count ≤ MAX_OBSERVERS`, the array still has its 5 slots, and every
slot `i < observer_count` holds a callback that was passed to `add_observer`, by
the caller or by an invoked callback.  There a further `add_observer` does not
fault, and a further `notify_observers` returns, does not lower the count and
leaves the slots below the count as they were; it leaves the array and the count
unchanged when the registry is full or when no callback in the registry calls
`add_observer`. -/
theorem registry_invariant {H : Type} (body : H → List H) (ops : List (ObsOp H)) :
    ∃ s, runOps body (ObsState.init H) ops = some s ∧
      0 ≤ s.observer_count ∧ s.observer_count ≤ (MAX_OBSERVERS : Int) ∧
      s.observers.length = MAX_OBSERVERS ∧
      (∀ i : Nat, (i : Int) < s.observer_count →
        ∃ h, s.observers[i]? = some (some h) ∧
          (h ∈ registered ops ∨ ∃ g ∈ s.invoked, h ∈ body g)) ∧
      (∀ h : H, ∃ s1, add_observer s h = some s1) ∧
      (∃ s1, notify_observers body s = some s1 ∧
        s.observer_count ≤ s1.observer_count ∧
        (∀ i : Nat, (i : Int) < s.observer_count → s1.observers[i]? = s.observers[i]?) ∧
        (s.observer_count = (MAX_OBSERVERS : Int) ∨
            (∀ (i : Nat) (h : H), s.observers[i]? = some (some h) → body h = []) →
          s1.observers = s.observers ∧ s1.observer_count = s.observer_count)) := by
  obtain ⟨s, regs, hrun, inv, hprov⟩ :=
    runOps_spec body ops (ObsState.init H) [] [] (obsInv_init H) (by simp)
  simp only [List.nil_append] at hprov
  refine ⟨s, hrun, ?_, ?_, inv.len, ?_, ?_, ?_⟩
  · rw [inv.count]; exact Int.ofNat_nonneg _
  · rw [inv.count]; exact_mod_cast Nat.min_le_right _ _
  · intro i hi
    rw [inv.count] at hi
    have hi2 : i < min regs.length MAX_OBSERVERS := by exact_mod_cast hi
    have hir : i < regs.length := lt_of_lt_of_le hi2 (Nat.min_le_left _ _)
    have him : i < MAX_OBSERVERS := lt_of_lt_of_le hi2 (Nat.min_le_right _ _)
    refine ⟨regs[i], ?_, hprov _ (List.getElem_mem hir)⟩
    rw [inv.slots i him, List.getElem?_eq_getElem hir]
  · intro h
    obtain ⟨s1, h1, _⟩ := obsInv_add inv h
    exact ⟨s1, h1⟩
  · obtain ⟨s1, extra, tr, h1, inv1, _, _⟩ := notify_general body inv
    refine ⟨s1, h1, ?_, ?_, ?_⟩
    · rw [inv.count, inv1.count, List.length_append]
      have : min regs.length MAX_OBSERVERS ≤ min (regs.length + extra.length) MAX_OBSERVERS :=
        min_le_min (Nat.le_add_right _ _) (le_refl _)
      exact_mod_cast this
    · intro i hi
      rw [inv.count] at hi
      have hi2 : i < min regs.length MAX_OBSERVERS := by exact_mod_cast hi
      have hir : i < regs.length := lt_of_lt_of_le hi2 (Nat.min_le_left _ _)
      have him : i < MAX_OBSERVERS := lt_of_lt_of_le hi2 (Nat.min_le_right _ _)
      rw [inv.slots i him, inv1.slots i him, List.getElem?_append_left hir]
    · intro hq
      have hq2 : MAX_OBSERVERS ≤ regs.length ∨ ∀ h ∈ regs, body h = [] := by
        by_cases hfull : MAX_OBSERVERS ≤ regs.length
        · exact Or.inl hfull
        · cases hq with
          | inl hc =>
            rw [inv.count] at hc
            have hc2 : min regs.length MAX_OBSERVERS = MAX_OBSERVERS := by exact_mod_cast hc
            have := Nat.min_le_left regs.length MAX_OBSERVERS
            exact Or.inl (by omega)
          | inr hb =>
            refine Or.inr (fun h hh => ?_)
            obtain ⟨i, hi, rfl⟩ := List.getElem_of_mem hh
            apply hb i
            rw [inv.slots i (by omega), List.getElem?_eq_getElem hi]
      have h2 := notify_quiet body inv hq2
      rw [h1] at h2
      have h3 := Option.some.inj h2
      rw [h3]
      exact ⟨rfl, rfl⟩

/-- C10 (as stated, it fails): with callback 8 registered, the registry has
`observer_count = 1`; `notify_observers` runs callback 8, which calls
`add_observer` on callback 9, and returns with `observer_count = 2` and slot 1
holding callback 9: the call did not leave the array and the count unchanged. -/
theorem notify_changes_registry :
    (runOps demoBody (ObsState.init Nat) [ObsOp.add 8]).map
        (fun s => (s.observers, s.observer_count))
      = some ([some 8, none, none, none, none], 1) ∧
    (runOps demoBody (ObsState.init Nat) [ObsOp.add 8, ObsOp.notify]).map
        (fun s => (s.observers, s.observer_count))
      = some ([some 8, some 9, none, none, none], 2) := by
  decide

end HomeAutomation

namespace FactoryMethod

/-! ### Shapes -/

theorem draw_of_circle {s : State} {x : Nat}
    (h : readPtr s.mem (x + OFF_draw) = Fn.draw_circle.addr) :
    draw s x = some (draw_circle s) := by
  have hd : Fn.ofAddr Fn.draw_circle.addr = some Fn.draw_circle := by decide
  simp only [draw, h, hd]

theorem draw_of_square {s : State} {x : Nat}
    (h : readPtr s.mem (x + OFF_draw) = Fn.draw_square.addr) :
    draw s x = some (draw_square s) := by
  have hd : Fn.ofAddr Fn.draw_square.addr = some Fn.draw_square := by decide
  simp only [draw, h, hd]

theorem shapes_fields (m : Mem) (pc ps : Nat) (hcs : pc + 8 ≤ ps ∨ ps + 8 ≤ pc) :
    readPtr (create_square (create_circle m pc) ps) (pc + OFF_draw) = Fn.draw_circle.addr ∧
    readPtr (create_square (create_circle m pc) ps) (ps + OFF_draw) = Fn.draw_square.addr := by
  unfold create_square create_circle OFF_draw
  constructor
  · rw [readPtr_writePtr_disjoint _ _ _ _ (by omega)]
    exact readPtr_writePtr _ _ _ (by decide)
  · exact readPtr_writePtr _ _ _ (by decide)

end FactoryMethod

namespace HomeAutomation

/-! ### Factory -/

theorem two_devices (m : Mem) (p1 p2 : Nat) (t1 t2 : List Nat)
    (ht1 : IsCStr t1) (hl1 : t1.length < 20) (hl2 : t2.length < 20)
    (h12 : p1 + SIZEOF_SmartDevice ≤ p2 ∨ p2 + SIZEOF_SmartDevice ≤ p1) :
    HasStr (create_device (create_device m p1 t1) p2 t2) (p1 + OFF_type) t1 ∧
    readPtr (create_device (create_device m p1 t1) p2 t2) (p1 + OFF_turn_on)
      = Fn.light_on.addr ∧
    readPtr (create_device (create_device m p1 t1) p2 t2) (p1 + OFF_turn_off)
      = Fn.light_off.addr := by
  unfold SIZEOF_SmartDevice at h12
  have hout : ∀ x, p1 ≤ x → x < p1 + 40 →
      create_device (create_device m p1 t1) p2 t2 x = create_device m p1 t1 x := by
    intro x h1 h2
    exact create_device_outside _ _ _ hl2 _ (by unfold SIZEOF_SmartDevice; omega)
  refine ⟨?_, ?_, ?_⟩
  · apply hasStr_congr (create_device_hasStr m p1 t1 ht1 hl1)
    intro x h1 h2
    unfold OFF_type at h1 h2
    exact hout x (by omega) (by omega)
  · rw [← create_device_turn_on m p1 t1]
    apply readPtr_congr
    intro x h1 h2
    unfold OFF_turn_on at h1 h2
    exact hout x (by omega) (by omega)
  · rw [← create_device_turn_off m p1 t1]
    apply readPtr_congr
    intro x h1 h2
    unfold OFF_turn_off at h1 h2
    exact hout x (by omega) (by omega)

/-- C6: every handle behaves as the variant it was created as.  With a circle
at `pc` and a square at `ps` (disjoint blocks), `draw` on the circle prints
"draw the circle" and `draw` on the square prints the square message of the
source ("draw the sqaure"), each entering its own function once.  For type
strings `t1`, `t2` shorter than 20 characters, `turn_on` / `turn_off` on
`create_device(t1)` print `<t1> Light ON` / `<t1> Light OFF`; and with a second
device `create_device(t2)` created afterwards in a disjoint block, each of the
two handles still prints its own tag and never the other's. -/
theorem factory_variants (m : Mem) (pc ps p1 p2 : Nat) (t1 t2 : List Nat) (fuel : Nat)
    (o : List Nat) (c : List (Fn × Option Nat)) (oS : List Nat) (cS : List FactoryMethod.Fn)
    (hcs : pc + 8 ≤ ps ∨ ps + 8 ≤ pc)
    (ht1 : IsCStr t1) (ht2 : IsCStr t2) (hl1 : t1.length < 20) (hl2 : t2.length < 20)
    (hf1 : t1.length < fuel) (hf2 : t2.length < fuel)
    (h12 : p1 + SIZEOF_SmartDevice ≤ p2 ∨ p2 + SIZEOF_SmartDevice ≤ p1) :
    (FactoryMethod.draw
        ⟨FactoryMethod.create_square (FactoryMethod.create_circle m pc) ps, oS, cS⟩ pc
      = some ⟨FactoryMethod.create_square (FactoryMethod.create_circle m pc) ps,
          oS ++ lit "draw the circle\n", cS ++ [FactoryMethod.Fn.draw_circle]⟩ ∧
     FactoryMethod.draw
        ⟨FactoryMethod.create_square (FactoryMethod.create_circle m pc) ps, oS, cS⟩ ps
      = some ⟨FactoryMethod.create_square (FactoryMethod.create_circle m pc) ps,
          oS ++ lit "draw the sqaure\n", cS ++ [FactoryMethod.Fn.draw_square]⟩) ∧
    (turn_on fuel ⟨create_device m p1 t1, o, c⟩ p1
      = some ⟨create_device m p1 t1, o ++ (t1 ++ lit " Light ON\n"),
          c ++ [(Fn.light_on, some p1)]⟩ ∧
     turn_off fuel ⟨create_device m p1 t1, o, c⟩ p1
      = some ⟨create_device m p1 t1, o ++ (t1 ++ lit " Light OFF\n"),
          c ++ [(Fn.light_off, some p1)]⟩) ∧
    (turn_on fuel ⟨create_device (create_device m p1 t1) p2 t2, o, c⟩ p1
      = some ⟨create_device (create_device m p1 t1) p2 t2, o ++ (t1 ++ lit " Light ON\n"),
          c ++ [(Fn.light_on, some p1)]⟩ ∧
     turn_off fuel ⟨create_device (create_device m p1 t1) p2 t2, o, c⟩ p1
      = some ⟨create_device (create_device m p1 t1) p2 t2, o ++ (t1 ++ lit " Light OFF\n"),
          c ++ [(Fn.light_off, some p1)]⟩ ∧
     turn_on fuel ⟨create_device (create_device m p1 t1) p2 t2, o, c⟩ p2
      = some ⟨create_device (create_device m p1 t1) p2 t2, o ++ (t2 ++ lit " Light ON\n"),
          c ++ [(Fn.light_on, some p2)]⟩ ∧
     turn_off fuel ⟨create_device (create_device m p1 t1) p2 t2, o, c⟩ p2
      = some ⟨create_device (create_device m p1 t1) p2 t2, o ++ (t2 ++ lit " Light OFF\n"),
          c ++ [(Fn.light_off, some p2)]⟩) := by
  obtain ⟨hc, hs⟩ := FactoryMethod.shapes_fields m pc ps hcs
  obtain ⟨a1, a2, a3⟩ := two_devices m p1 p2 t1 t2 ht1 hl1 hl2 h12
  refine ⟨⟨?_, ?_⟩, ⟨?_, ?_⟩, ?_, ?_, ?_, ?_⟩
  · exact FactoryMethod.draw_of_circle (s := ⟨_, oS, cS⟩) hc
  · exact FactoryMethod.draw_of_square (s := ⟨_, oS, cS⟩) hs
  · exact turn_on_light (s := ⟨_, o, c⟩) (create_device_hasStr m p1 t1 ht1 hl1)
      (create_device_turn_on m p1 t1) hf1
  · exact turn_off_light (s := ⟨_, o, c⟩) (create_device_hasStr m p1 t1 ht1 hl1)
      (create_device_turn_off m p1 t1) hf1
  · exact turn_on_light (s := ⟨_, o, c⟩) a1 a2 hf1
  · exact turn_off_light (s := ⟨_, o, c⟩) a1 a3 hf1
  · exact turn_on_light (s := ⟨_, o, c⟩) (create_device_hasStr _ p2 t2 ht2 hl2)
      (create_device_turn_on _ p2 t2) hf2
  · exact turn_off_light (s := ⟨_, o, c⟩) (create_device_hasStr _ p2 t2 ht2 hl2)
      (create_device_turn_off _ p2 t2) hf2

theorem factory_variants_witness :
    (FactoryMethod.draw
        ⟨FactoryMethod.create_square (FactoryMethod.create_circle zeroMem 4096) 4112, [], []⟩
        4096
      = some ⟨FactoryMethod.create_square (FactoryMethod.create_circle zeroMem 4096) 4112,
          [] ++ lit "draw the circle\n", [] ++ [FactoryMethod.Fn.draw_circle]⟩ ∧
     FactoryMethod.draw
        ⟨FactoryMethod.create_square (FactoryMethod.create_circle zeroMem 4096) 4112, [], []⟩
        4112
      = some ⟨FactoryMethod.create_square (FactoryMethod.create_circle zeroMem 4096) 4112,
          [] ++ lit "draw the sqaure\n", [] ++ [FactoryMethod.Fn.draw_square]⟩) ∧
    (turn_on 32 ⟨create_device zeroMem 4096 (lit "LivingRoom"), [], []⟩ 4096
      = some ⟨create_device zeroMem 4096 (lit "LivingRoom"),
          [] ++ (lit "LivingRoom" ++ lit " Light ON\n"), [] ++ [(Fn.light_on, some 4096)]⟩ ∧
     turn_off 32 ⟨create_device zeroMem 4096 (lit "LivingRoom"), [], []⟩ 4096
      = some ⟨create_device zeroMem 4096 (lit "LivingRoom"),
          [] ++ (lit "LivingRoom" ++ lit " Light OFF\n"), [] ++ [(Fn.light_off, some 4096)]⟩) ∧
    (turn_on 32
        ⟨create_device (create_device zeroMem 4096 (lit "LivingRoom")) 4144 (lit "Bedroom"),
          [], []⟩ 4096
      = some ⟨create_device (create_device zeroMem 4096 (lit "LivingRoom")) 4144 (lit "Bedroom"),
          [] ++ (lit "LivingRoom" ++ lit " Light ON\n"), [] ++ [(Fn.light_on, some 4096)]⟩ ∧
     turn_off 32
        ⟨create_device (create_device zeroMem 4096 (lit "LivingRoom")) 4144 (lit "Bedroom"),
          [], []⟩ 4096
      = some ⟨create_device (create_device zeroMem 4096 (lit "LivingRoom")) 4144 (lit "Bedroom"),
          [] ++ (lit "LivingRoom" ++ lit " Light OFF\n"), [] ++ [(Fn.light_off, some 4096)]⟩ ∧
     turn_on 32
        ⟨create_device (create_device zeroMem 4096 (lit "LivingRoom")) 4144 (lit "Bedroom"),
          [], []⟩ 4144
      = some ⟨create_device (create_device zeroMem 4096 (lit "LivingRoom")) 4144 (lit "Bedroom"),
          [] ++ (lit "Bedroom" ++ lit " Light ON\n"), [] ++ [(Fn.light_on, some 4144)]⟩ ∧
     turn_off 32
        ⟨create_device (create_device zeroMem 4096 (lit "LivingRoom")) 4144 (lit "Bedroom"),
          [], []⟩ 4144
      = some ⟨create_device (create_device zeroMem 4096 (lit "LivingRoom")) 4144 (lit "Bedroom"),
          [] ++ (lit "Bedroom" ++ lit " Light OFF\n"), [] ++ [(Fn.light_off, some 4144)]⟩) :=
  factory_variants zeroMem 4096 4112 4096 4144 (lit "LivingRoom") (lit "Bedroom") 32 [] [] [] []
    (by decide) (by decide) (by decide) (by decide) (by decide) (by decide) (by decide)
    (by decide)

end HomeAutomation

namespace SingleTonsDemo

/-! ### Singleton -/

theorem get_app0 {α : Type} (l : List α) (a : α) (r : List α) :
    (l ++ a :: r)[l.length]? = some a := by
  rw [List.getElem?_append_right (le_refl _)]
  simp

theorem get_app1 {α : Type} (l : List α) (a b : α) (r : List α) :
    (l ++ a :: b :: r)[l.length + 1]? = some b := by
  rw [List.getElem?_append_right (by omega)]
  simp

theorem get_app_lt {α : Type} (l r : List α) (i : Nat) (h : i < l.length) :
    (l ++ r)[i]? = l[i]? := List.getElem?_append_left h

theorem getInstance_eq (w : World) :
    getInstance w = (w.heap.length + 1,
      { heap := w.heap ++ [some (SingleTons.mk none none)],
        instancePtr := w.heap.length + 1, out := w.out }) := rfl

theorem set_app0 {α : Type} (l : List α) (a b : α) (r : List α) :
    (l ++ a :: r).set l.length b = l ++ b :: r := by
  simp

theorem set_app1 {α : Type} (l : List α) (a b c : α) (r : List α) :
    (l ++ a :: b :: r).set (l.length + 1) c = l ++ a :: c :: r := by
  induction l with
  | nil => rfl
  | cons x l ih => simp [ih]

/-- C8: for every state of the program, a call of `getInstance` allocates a new
block and stores its address in the static pointer; after `data = 30` is
written through the handle it returned, a second call returns a different
handle, the static pointer is that second handle, `data` read through the
first handle is still 30 while the second instance's `data` was never
assigned (and stays so whatever is written through the first handle
afterwards); `freeSingleTons` then frees the second instance and no other
block: the first stays allocated. -/
theorem getInstance_reallocates (w : World) :
    ∃ w2, store_data (getInstance w).2 (getInstance w).1 30 = some w2 ∧
      (getInstance w).2.instancePtr = (getInstance w).1 ∧
      (getInstance w2).1 ≠ (getInstance w).1 ∧
      (getInstance w2).2.instancePtr = (getInstance w2).1 ∧
      load_data (getInstance w2).2 (getInstance w).1 = some (some 30) ∧
      load_data (getInstance w2).2 (getInstance w2).1 = some none ∧
      (∀ (v : Int) (w3 : World),
        store_data (getInstance w2).2 (getInstance w).1 v = some w3 →
        load_data w3 (getInstance w2).1 = some none) ∧
      ∃ w4, freeSingleTons (getInstance w2).2 = some w4 ∧
        w4.live (getInstance w2).1 = false ∧
        w4.live (getInstance w).1 = true ∧
        ∀ p, p ≠ (getInstance w2).1 → w4.live p = (getInstance w2).2.live p := by
  refine ⟨{ heap := w.heap ++ [some (SingleTons.mk (some 30) none)],
            instancePtr := w.heap.length + 1, out := w.out }, ?_, rfl, ?_, rfl, ?_, ?_, ?_, ?_⟩
  · simp only [getInstance_eq, store_data, Nat.add_sub_cancel, get_app0, set_app0]
    simp
  · simp [getInstance_eq]
  · simp only [getInstance_eq, load_data, Nat.add_sub_cancel, List.length_append,
      List.length_singleton, List.append_assoc, List.singleton_append, get_app0]
    simp
  · simp only [getInstance_eq, load_data, Nat.add_sub_cancel, List.length_append,
      List.length_singleton, List.append_assoc, List.singleton_append, get_app1]
    simp
  · intro v w3 h
    simp only [getInstance_eq, store_data, Nat.add_sub_cancel, List.length_append,
      List.length_singleton, List.append_assoc, List.singleton_append, get_app0, set_app0] at h
    simp only [Nat.add_one_ne_zero, if_false, Option.some.injEq] at h
    subst h
    simp only [getInstance_eq, load_data, Nat.add_sub_cancel, List.length_append,
      List.length_singleton, get_app1]
    simp
  · refine ⟨{ heap := w.heap ++ [some (SingleTons.mk (some 30) none), none],
              instancePtr := w.heap.length + 2, out := w.out }, ?_, ?_, ?_, ?_⟩
    · simp only [getInstance_eq, freeSingleTons, free, Nat.add_sub_cancel, List.length_append,
        List.length_singleton, List.append_assoc, List.singleton_append, get_app1, set_app1]
      simp
    · simp only [getInstance_eq, World.live, Nat.add_sub_cancel, List.length_append,
        List.length_singleton, get_app1]
      simp
    · simp only [getInstance_eq, World.live, Nat.add_sub_cancel, get_app0]
      simp
    · intro p hp
      simp only [getInstance_eq, List.length_append, List.length_singleton] at hp
      simp only [getInstance_eq, World.live, List.length_append, List.length_singleton,
        List.append_assoc, List.singleton_append]
      by_cases h0 : p = 0
      · simp [h0]
      · congr 1
        by_cases h1 : p - 1 < w.heap.length
        · rw [get_app_lt _ _ _ h1, get_app_lt _ _ _ h1]
        · by_cases h2 : p - 1 = w.heap.length
          · rw [h2, get_app0, get_app0]
          · rw [List.getElem?_eq_none (by simp; omega), List.getElem?_eq_none (by simp; omega)]

end SingleTonsDemo
